import Mathlib

/-!
Verification development for the credit validation microservice
(python_microservice/credit_validator.py).

Modelling conventions:
* Monetary values are exact rationals.  The source computes on Decimal values
  parsed from decimal strings; its Decimal quantization to cents with
  ROUND_HALF_UP is modelled by quantizeCents.
* Calendar dates are year/month/day triples compared through an order-embedding
  key; the source parses ISO dates with strptime and compares the resulting
  datetime objects chronologically, which agrees with this key order.
* Python dicts mutated through shared references are modelled by threading an
  explicit ServiceState; object identity of the records held in the state
  lists is modelled by list position, so in-place mutation becomes an indexed
  update of the corresponding list.
* Dynamic error-message strings keep the fixed text of the source f-strings
  with the interpolated numbers omitted.
-/

namespace CreditService

attribute [local semireducible] Rat.add Rat.sub Rat.mul Rat.inv Rat.ofScientific

structure Date where
  year : Nat
  month : Nat
  day : Nat
deriving DecidableEq, Repr

/-- Chronological key for a calendar date (lexicographic year/month/day). -/
def Date.key (d : Date) : Nat := d.year * 10000 + d.month * 100 + d.day

/-- Truncating integer part, used only on non-negative rationals where
truncation and flooring agree. -/
def qtrunc (q : ℚ) : ℤ := q.num / (q.den : ℤ)

/-- Rounding to an integer with halves away from zero, the semantics of
Decimal ROUND_HALF_UP. -/
def roundHalfUpUnits (q : ℚ) : ℤ :=
  if q < 0 then -qtrunc (-q + 1/2) else qtrunc (q + 1/2)

/-- Model of Decimal.quantize to two places with ROUND_HALF_UP. -/
def quantizeCents (q : ℚ) : ℚ := (roundHalfUpUnits (q * 100) : ℚ) / 100

/-- Row of the credits table (the dicts held in self.credits). -/
structure CreditGrant where
  id : String
  customerId : String
  amount : ℚ
  originalAmount : ℚ
  earnedDate : Date
  expiryDate : Date
  status : String
  category : String
  description : String
deriving DecidableEq, Repr

/-- Credit dict appended to a customer record by _add_credit_to_account; its
key set differs from the credits-table rows (no customerId, originalAmount or
category key), hence a separate structure. -/
structure AccountCredit where
  id : String
  amount : ℚ
  earnedDate : Date
  expiryDate : Date
  status : String
  sourceInvoice : String
  description : String
deriving DecidableEq, Repr

structure Customer where
  id : String
  name : String
  email : String
  credits : List AccountCredit
deriving DecidableEq, Repr

structure Invoice where
  id : String
  customerId : String
  originalAmount : ℚ
  currentAmount : ℚ
  creditsApplied : ℚ
  status : String
  date : Date
deriving DecidableEq, Repr

structure CreditMemo where
  id : String
  customerId : String
  invoiceId : String
  amount : ℚ
  reason : String
  status : String
  customerChoice : Option String
  targetInvoiceId : Option String
  approvedDate : Option Date
  appliedDate : Option Date
deriving DecidableEq, Repr

/-- The mock database held by CreditValidationService. -/
structure ServiceState where
  customers : List Customer
  credits : List CreditGrant
  invoices : List Invoice
  creditMemos : List CreditMemo
deriving DecidableEq, Repr

/-- Uppercase conversion over the character data, modelling str.upper(). -/
def strUpper (s : String) : String := String.mk (s.data.map Char.toUpper)

/-- Lowercase conversion over the character data, modelling str.lower(). -/
def strLower (s : String) : String := String.mk (s.data.map Char.toLower)

/-- Space stripping at both ends, modelling str.strip() for the space-only
whitespace occurring in this data model. -/
def strTrim (s : String) : String :=
  String.mk (((s.data.dropWhile (fun c => c = ' ')).reverse.dropWhile (fun c => c = ' ')).reverse)

/-- Splitting into maximal nonempty runs of non-space characters, modelling
str.split() with no arguments. -/
def wordsAux (acc : List Char) : List Char → List String
  | [] => if acc.isEmpty then [] else [String.mk acc.reverse]
  | c :: rest =>
    if c = ' ' then
      if acc.isEmpty then wordsAux [] rest
      else String.mk acc.reverse :: wordsAux [] rest
    else wordsAux (c :: acc) rest

/-- Python str.split() on an already stripped lowered name. -/
def splitNameParts (s : String) : List String := wordsAux [] s.data

/-- Sliding-window search used to model the Python substring test. -/
def infixSearch (needle : List Char) : List Char → Bool
  | [] => needle.isEmpty
  | c :: rest => needle.isPrefixOf (c :: rest) || infixSearch needle rest

/-- Python substring test (needle in hay). -/
def containsSub (hay needle : String) : Bool :=
  infixSearch needle.toList hay.toList

/-- Name comparison of find_customer: exact lowered match, else every
whitespace token of the search name is a substring of some token of the
candidate name. -/
def customerNameMatches (searchName custName : String) : Bool :=
  let nl := strTrim (strLower searchName)
  let cl := strTrim (strLower custName)
  nl == cl ||
    (splitNameParts nl).all (fun sp => (splitNameParts cl).any (fun cp => containsSub cp sp))

/-- find_customer: case-insensitive id match first, then fuzzy name match.
Empty strings are falsy in the source and skip the respective branch. -/
def find_customer (s : ServiceState) (customer_id customer_name : String) : Option Customer :=
  let byId :=
    if customer_id ≠ "" then
      s.customers.find? (fun c => strUpper c.id == strUpper customer_id)
    else none
  match byId with
  | some c => some c
  | none =>
    if customer_name ≠ "" then
      s.customers.find? (fun c => customerNameMatches customer_name c.name)
    else none

/-- find_invoice: case-insensitive id match over the invoices table, else the
customer's latest pending invoice (stable sort by date, latest first).  The
index into the invoices table models the reference identity of the found
record. -/
def find_invoice (s : ServiceState) (invoice_id : String) (customer_id : Option String) :
    Option (Nat × Invoice) :=
  let byId :=
    if invoice_id ≠ "" then
      s.invoices.enum.find? (fun p => strUpper p.2.id == strUpper invoice_id)
    else none
  match byId with
  | some p => some p
  | none =>
    match customer_id with
    | some cid =>
      if cid ≠ "" then
        (List.insertionSort (fun a b : Nat × Invoice => b.2.date.key ≤ a.2.date.key)
          (s.invoices.enum.filter (fun p => p.2.customerId == cid && p.2.status == "pending"))).head?
      else none
    | none => none

/-- Filter of get_customer_active_credits: owned, active or partially_used,
positive amount, expiry strictly in the future. -/
def isActiveCredit (now : Date) (cid : String) (c : CreditGrant) : Bool :=
  c.customerId == cid && (c.status == "active" || c.status == "partially_used") &&
    decide (0 < c.amount) && decide (now.key < c.expiryDate.key)

def get_customer_active_credits (s : ServiceState) (cid : String) (now : Date) :
    List CreditGrant :=
  s.credits.filter (fun c => isActiveCredit now cid c)

def calculate_total_active_credits (s : ServiceState) (cid : String) (now : Date) : ℚ :=
  quantizeCents (((get_customer_active_credits s cid now).map (fun c => c.amount)).sum)

/-- Classification of one credit row inside calculate_available_credits,
following the branch order of the source: used-or-nonpositive first, then
expiry, then active; rows matching none of the branches land in no bucket. -/
inductive Bucket
  | used
  | expired
  | active
  | ignored
deriving DecidableEq, Repr

def classify (now : Date) (c : CreditGrant) : Bucket :=
  if c.status = "used" ∨ c.amount ≤ 0 then .used
  else if c.expiryDate.key ≤ now.key then .expired
  else if (c.status = "active" ∨ c.status = "partially_used") ∧ 0 < c.amount then .active
  else .ignored

/-- Lazy-expiry correction applied to a row found past its expiry. -/
def expireGrant (c : CreditGrant) : CreditGrant := { c with status := "expired" }

/-- Per-row state effect of calculate_available_credits: rows of this
customer classified expired get their status overwritten. -/
def fixExpired (now : Date) (cid : String) (c : CreditGrant) : CreditGrant :=
  if c.customerId = cid ∧ classify now c = .expired then expireGrant c else c

structure CreditInfo where
  total_available : ℚ
  active_credits : List (Nat × CreditGrant)
  expired_credits : List CreditGrant
  used_credits : List CreditGrant
deriving DecidableEq, Repr

/-- calculate_available_credits: buckets the customer's rows, reports the
quantized active total, and as a side effect reclassifies expired rows in the
credits table.  Active rows keep their table index, modelling the shared
references the source later mutates. -/
def calculate_available_credits (s : ServiceState) (customer : Customer) (now : Date) :
    CreditInfo × ServiceState :=
  let cc := s.credits.enum.filter (fun p => p.2.customerId == customer.id)
  let used := (cc.filter (fun p => classify now p.2 == .used)).map Prod.snd
  let expired := (cc.filter (fun p => classify now p.2 == .expired)).map (fun p => expireGrant p.2)
  let active := cc.filter (fun p => classify now p.2 == .active)
  let total := quantizeCents ((active.map (fun p => p.2.amount)).sum)
  let credits2 := s.credits.map (fixExpired now customer.id)
  (⟨total, active, expired, used⟩, { s with credits := credits2 })

structure CustomerInfo where
  id : String
  name : String
  email : String
deriving DecidableEq, Repr

structure InvoiceInfo where
  id : String
  original_amount : ℚ
  current_amount : ℚ
  credits_applied : ℚ
  status : String
deriving DecidableEq, Repr

structure ValidationResult where
  success : Bool
  customer_found : Bool
  invoice_found : Bool
  customer_info : Option CustomerInfo
  invoice_info : Option InvoiceInfo
  credit_info : Option CreditInfo
  validation_errors : List String
  warnings : List String
deriving DecidableEq, Repr

/-- validate_credit_application: customer, invoice, then the two amount
checks against the quantized available total and the invoice balance. -/
def validate_credit_application (s : ServiceState) (now : Date)
    (customer_id customer_name : String) (credit_amount : ℚ) (invoice_id : String) :
    ValidationResult × ServiceState :=
  match find_customer s customer_id customer_name with
  | none =>
    ({ success := false, customer_found := false, invoice_found := false,
       customer_info := none, invoice_info := none, credit_info := none,
       validation_errors := ["Customer not found"], warnings := [] }, s)
  | some customer =>
    let cinfo : CustomerInfo := ⟨customer.id, customer.name, customer.email⟩
    match find_invoice s invoice_id (some customer.id) with
    | none =>
      ({ success := false, customer_found := true, invoice_found := false,
         customer_info := some cinfo, invoice_info := none, credit_info := none,
         validation_errors := ["No pending invoice found for customer"], warnings := [] }, s)
    | some (_, invoice) =>
      let iinfo : InvoiceInfo :=
        ⟨invoice.id, invoice.originalAmount, invoice.currentAmount,
          invoice.creditsApplied, invoice.status⟩
      let ci := calculate_available_credits s customer now
      if credit_amount > ci.1.total_available then
        ({ success := false, customer_found := true, invoice_found := true,
           customer_info := some cinfo, invoice_info := some iinfo, credit_info := some ci.1,
           validation_errors := ["Insufficient credits"], warnings := [] }, ci.2)
      else if credit_amount > invoice.currentAmount then
        ({ success := false, customer_found := true, invoice_found := true,
           customer_info := some cinfo, invoice_info := some iinfo, credit_info := some ci.1,
           validation_errors := ["Credit amount exceeds invoice balance"], warnings := [] }, ci.2)
      else
        ({ success := true, customer_found := true, invoice_found := true,
           customer_info := some cinfo, invoice_info := some iinfo, credit_info := some ci.1,
           validation_errors := [],
           warnings := if ci.1.expired_credits.isEmpty then []
                       else ["Customer has expired credits"] }, ci.2)

/-- Usage record appended to credits_used for each consumed grant. -/
structure CreditUsage where
  credit_id : String
  description : String
  original_amount : ℚ
  amount_used : ℚ
  remaining_in_credit : ℚ
deriving DecidableEq, Repr

/-- In-place update of one consumed grant: decrement the amount and mark the
grant used exactly when the new amount is zero (the source has no else
branch, so a partially consumed grant keeps its stored status). -/
def consumeGrant (c : CreditGrant) (use : ℚ) : CreditGrant :=
  { c with amount := c.amount - use,
           status := if c.amount - use = 0 then "used" else c.status }

/-- FIFO consumption loop of apply_credits over the sorted active rows,
carried out on (table index, row) pairs; the loop stops once the outstanding
amount is no longer positive and leaves the remaining pairs untouched. -/
def fifoConsume : List (Nat × CreditGrant) → ℚ → List (Nat × CreditGrant) × List CreditUsage × ℚ
  | [], rem => ([], [], rem)
  | (i, c) :: rest, rem =>
    if rem ≤ 0 then ((i, c) :: rest, [], rem)
    else
      let use := min c.amount rem
      let out := fifoConsume rest (rem - use)
      ((i, consumeGrant c use) :: out.1,
       ⟨c.id, c.description, c.amount, use, c.amount - use⟩ :: out.2.1,
       out.2.2)

/-- Ascending earnedDate order used to sort active credits (oldest first). -/
def earnedOrder (a b : Nat × CreditGrant) : Prop :=
  a.2.earnedDate.key ≤ b.2.earnedDate.key

instance : DecidableRel earnedOrder :=
  fun a b => Nat.decLe a.2.earnedDate.key b.2.earnedDate.key

instance : IsTotal (Nat × CreditGrant) earnedOrder :=
  ⟨fun a b => Nat.le_total a.2.earnedDate.key b.2.earnedDate.key⟩

instance : IsTrans (Nat × CreditGrant) earnedOrder :=
  ⟨fun _ _ _ h1 h2 => Nat.le_trans h1 h2⟩

/-- Association lookup by table index, modelling that the loop mutated the
row object stored at that index. -/
def alookup (k : Nat) : List (Nat × CreditGrant) → Option CreditGrant
  | [] => none
  | p :: rest => if p.1 = k then some p.2 else alookup k rest

/-- Indexed active rows of a credits table, as reported in the active bucket
of calculate_available_credits. -/
def activePairs (now : Date) (cid : String) (bl : List CreditGrant) :
    List (Nat × CreditGrant) :=
  bl.enum.filter (fun p => isActiveCredit now cid p.2)

structure Transaction where
  customer_id : String
  customer_name : String
  customer_email : String
  invoice_id : String
  original_invoice_amount : ℚ
  previous_invoice_amount : ℚ
  credit_amount_applied : ℚ
  new_invoice_amount : ℚ
  remaining_credits : ℚ
deriving DecidableEq, Repr

inductive ApplyOutcome
  | failed (v : ValidationResult)
  | applied (t : Transaction) (credits_used : List CreditUsage)
deriving DecidableEq, Repr

/-- Usage records carried by an apply_credits outcome (empty on failure). -/
def outcomeUsage : ApplyOutcome → List CreditUsage
  | .failed _ => []
  | .applied _ recs => recs

/-- apply_credits: validate, re-find customer and invoice, bucket the credits
again, consume active credits oldest-first, then update the invoice and
report the remaining balance. -/
def apply_credits (s : ServiceState) (now : Date)
    (customer_id customer_name : String) (credit_amount : ℚ) (invoice_id : String) :
    ApplyOutcome × ServiceState :=
  let v := validate_credit_application s now customer_id customer_name credit_amount invoice_id
  if v.1.success then
    match find_customer v.2 customer_id customer_name with
    | none => (.failed v.1, v.2)
    | some customer =>
      match find_invoice v.2 invoice_id (some customer.id) with
      | none => (.failed v.1, v.2)
      | some (ix, invoice) =>
        let ci := calculate_available_credits v.2 customer now
        let sortedActive := List.insertionSort earnedOrder ci.1.active_credits
        let fc := fifoConsume sortedActive credit_amount
        let s3 : ServiceState :=
          { ci.2 with credits := ci.2.credits.enum.map (fun p => (alookup p.1 fc.1).getD p.2) }
        let newAmount := invoice.currentAmount - credit_amount
        let invoice2 := { invoice with
          currentAmount := newAmount,
          creditsApplied := invoice.creditsApplied + credit_amount }
        let s4 := { s3 with invoices := s3.invoices.set ix invoice2 }
        let ci2 := calculate_available_credits s4 customer now
        (.applied
          { customer_id := customer.id, customer_name := customer.name,
            customer_email := customer.email, invoice_id := invoice.id,
            original_invoice_amount := invoice.originalAmount,
            previous_invoice_amount := invoice.currentAmount,
            credit_amount_applied := credit_amount,
            new_invoice_amount := newAmount,
            remaining_credits := ci2.1.total_available }
          fc.2.1,
         ci2.2)
  else (.failed v.1, v.2)

/-- Entry of the applied_credits list reported by the partial-payment
preview. -/
structure AppliedCredit where
  id : String
  amount : ℚ
  category : String
deriving DecidableEq, Repr

/-- Simulated credit application of process_partial_payment over the active
credits in table order, returning the would-be usage list and the total that
would be applied. -/
def coverLoop : List CreditGrant → ℚ → List AppliedCredit × ℚ
  | [], _ => ([], 0)
  | c :: rest, rem =>
    if rem ≤ 0 then ([], 0)
    else
      let use := if c.amount > rem then rem else c.amount
      let out := coverLoop rest (rem - use)
      (⟨c.id, use, c.category⟩ :: out.1, use + out.2)

structure PartResult where
  success : Bool
  error : Option String
  invoice_fully_paid : Bool
  paid_amount : ℚ
  credits_applied : ℚ
  applied_credits : List AppliedCredit
  remaining_balance : ℚ
  remaining_credits : ℚ
deriving DecidableEq, Repr

/-- Model of process_partial_payment.  A supplied invoice amount of zero is
falsy in the source and falls back to the stored invoice balance. -/
def processPartPayment (s : ServiceState) (now : Date)
    (customer_id customer_name invoice_id : String) (paid_amount : ℚ)
    (invoice_amount : Option ℚ) : PartResult × ServiceState :=
  match find_customer s customer_id customer_name with
  | none =>
    ({ success := false, error := some "Customer not found", invoice_fully_paid := false,
       paid_amount := paid_amount, credits_applied := 0, applied_credits := [],
       remaining_balance := 0, remaining_credits := 0 }, s)
  | some customer =>
    match s.invoices.find? (fun inv => strUpper inv.id == strUpper invoice_id) with
    | none =>
      ({ success := false, error := some "Invoice not found", invoice_fully_paid := false,
         paid_amount := paid_amount, credits_applied := 0, applied_credits := [],
         remaining_balance := 0, remaining_credits := 0 }, s)
    | some invoice =>
      if invoice.customerId ≠ customer.id then
        ({ success := false, error := some "Invoice does not belong to this customer",
           invoice_fully_paid := false, paid_amount := paid_amount, credits_applied := 0,
           applied_credits := [], remaining_balance := 0, remaining_credits := 0 }, s)
      else
        let total_amount :=
          match invoice_amount with
          | some a => if a ≠ 0 then a else invoice.currentAmount
          | none => invoice.currentAmount
        let remaining_balance := total_amount - paid_amount
        if remaining_balance ≤ 0 then
          ({ success := true, error := none, invoice_fully_paid := true,
             paid_amount := paid_amount, credits_applied := 0, applied_credits := [],
             remaining_balance := 0,
             remaining_credits := calculate_total_active_credits s customer.id now }, s)
        else
          let available := get_customer_active_credits s customer.id now
          let total_available := (available.map (fun c => c.amount)).sum
          if total_available ≤ 0 then
            ({ success := false, error := some "No credits available for deduction",
               invoice_fully_paid := false, paid_amount := paid_amount, credits_applied := 0,
               applied_credits := [], remaining_balance := remaining_balance,
               remaining_credits := 0 }, s)
          else
            let out := coverLoop available remaining_balance
            let final_remaining := remaining_balance - out.2
            let fully := final_remaining ≤ 0
            ({ success := true, error := none, invoice_fully_paid := fully,
               paid_amount := paid_amount, credits_applied := out.2,
               applied_credits := out.1,
               remaining_balance := if fully then 0 else final_remaining,
               remaining_credits := total_available - out.2 }, s)

structure SimpleResult where
  success : Bool
  error : Option String
deriving DecidableEq, Repr

/-- Model of _apply_credit_to_invoice: add to creditsApplied, clamp the new
balance at zero.  No credit row is read or written. -/
def apply_credit_to_invoice (s : ServiceState) (credit_amount : ℚ) (invoice_id : String) :
    SimpleResult × ServiceState :=
  match find_invoice s invoice_id none with
  | none => ({ success := false, error := some "Target invoice not found" }, s)
  | some (ix, invoice) =>
    let invoice2 := { invoice with
      creditsApplied := invoice.creditsApplied + credit_amount,
      currentAmount := max 0 (invoice.currentAmount - credit_amount) }
    ({ success := true, error := none },
     { s with invoices := s.invoices.set ix invoice2 })

/-- datetime.replace with the year advanced by two. -/
def dateAddTwoYears (d : Date) : Date := { d with year := d.year + 2 }

/-- Python format string CR{n:03d}. -/
def pad3 (n : Nat) : String :=
  let t := toString n
  if t.length < 3 then String.mk (List.replicate (3 - t.length) '0') ++ t else t

/-- Model of _add_credit_to_account: appends a new credit dict to the
customer record's embedded credits list (not to the credits table). -/
def add_credit_to_account (s : ServiceState) (now : Date) (customer_id : String)
    (credit_amount : ℚ) (reason : String) : SimpleResult × ServiceState :=
  match s.customers.enum.find? (fun p => p.2.id == customer_id) with
  | none => ({ success := false, error := some "Customer not found" }, s)
  | some (ix, customer) =>
    let newCredit : AccountCredit :=
      { id := "CR" ++ pad3 (customer.credits.length + 1),
        amount := credit_amount,
        earnedDate := now,
        expiryDate := dateAddTwoYears now,
        status := "active",
        sourceInvoice := "CREDIT_MEMO",
        description := reason }
    ({ success := true, error := none },
     { s with customers :=
         s.customers.set ix { customer with credits := customer.credits ++ [newCredit] } })

structure ApproveResult where
  success : Bool
  error : Option String
  credit_memo : Option CreditMemo
deriving DecidableEq, Repr

/-- Final step of approve_credit_memo: stamp appliedDate on the memo object
and report success. -/
def finalizeMemo (s : ServiceState) (mi : Nat) (memo : CreditMemo) (now : Date) :
    ApproveResult × ServiceState :=
  let memoDone := { memo with appliedDate := some now }
  ({ success := true, error := none, credit_memo := some memoDone },
   { s with creditMemos := s.creditMemos.set mi memoDone })

/-- Model of approve_credit_memo.  The memo object is stamped approved with
the customer choice and approval date before the choice is dispatched, so a
failing delegation returns an error while the stamped memo stays in the
table. -/
def approve_credit_memo (s : ServiceState) (now : Date)
    (credit_memo_id customer_choice target_invoice_id : String) :
    ApproveResult × ServiceState :=
  match s.creditMemos.enum.find? (fun p => p.2.id == credit_memo_id) with
  | none => ({ success := false, error := some "Credit memo not found", credit_memo := none }, s)
  | some (mi, memo) =>
    let memo1 := { memo with
      status := "approved",
      approvedDate := some now,
      customerChoice := some customer_choice }
    let s1 := { s with creditMemos := s.creditMemos.set mi memo1 }
    if customer_choice = "apply_to_invoice" ∧ target_invoice_id ≠ "" then
      let memo2 := { memo1 with targetInvoiceId := some target_invoice_id }
      let s2 := { s1 with creditMemos := s1.creditMemos.set mi memo2 }
      let r := apply_credit_to_invoice s2 memo2.amount target_invoice_id
      if r.1.success then finalizeMemo r.2 mi memo2 now
      else ({ success := false, error := r.1.error, credit_memo := none }, r.2)
    else if customer_choice = "apply_to_account" then
      let r := add_credit_to_account s1 now memo1.customerId memo1.amount memo1.reason
      if r.1.success then finalizeMemo r.2 mi memo1 now
      else ({ success := false, error := r.1.error, credit_memo := none }, r.2)
    else if customer_choice = "refund" then
      let memo2 := { memo1 with status := "refund_processed" }
      let s2 := { s1 with creditMemos := s1.creditMemos.set mi memo2 }
      finalizeMemo s2 mi memo2 now
    else finalizeMemo s1 mi memo1 now

/-- Specification-side FIFO walk, transcribed from the spec wording of the
allocation algorithm: walk the credits in the given order, consume the
minimum of the outstanding request and the grant amount, record the grant id
with the consumed portion, stop when the outstanding request reaches zero. -/
def specFifoWalk : List CreditGrant → ℚ → List (String × ℚ) × ℚ
  | [], outstanding => ([], outstanding)
  | c :: rest, outstanding =>
    if outstanding ≤ 0 then ([], outstanding)
    else
      let consumed := min outstanding c.amount
      let out := specFifoWalk rest (outstanding - consumed)
      ((c.id, consumed) :: out.1, out.2)

/-! Concrete sample data used by the counterexamples and witnesses. -/

def demoNow : Date := ⟨2025, 1, 1⟩

def cust1 : Customer := ⟨"CUST1", "Alice Smith", "alice@example.com", []⟩

def cust2 : Customer := ⟨"CUST2", "Bob Jones", "bob@example.com", []⟩

/-- Newer grant listed first in the credits table. -/
def cr2 : CreditGrant :=
  ⟨"CR2", "CUST1", 200, 200, ⟨2024, 2, 1⟩, ⟨2030, 1, 1⟩, "active", "promo", "february credit"⟩

def cr1 : CreditGrant :=
  ⟨"CR1", "CUST1", 300, 300, ⟨2024, 1, 1⟩, ⟨2030, 1, 1⟩, "active", "reward", "january credit"⟩

/-- Grant still marked active although its expiry date has passed. -/
def cr3 : CreditGrant :=
  ⟨"CR3", "CUST1", 100, 100, ⟨2024, 3, 1⟩, ⟨2024, 6, 1⟩, "active", "promo", "stale credit"⟩

/-- Grant marked used whose expiry date has also passed. -/
def cr4 : CreditGrant :=
  ⟨"CR4", "CUST1", 5, 50, ⟨2024, 1, 15⟩, ⟨2024, 6, 1⟩, "used", "promo", "consumed credit"⟩

def cr5 : CreditGrant :=
  ⟨"CR5", "CUST2", 50, 50, ⟨2024, 1, 1⟩, ⟨2030, 1, 1⟩, "active", "promo", "bob credit"⟩

def inv1 : Invoice := ⟨"INV1", "CUST1", 1000, 1000, 0, "pending", ⟨2024, 5, 1⟩⟩

def inv2 : Invoice := ⟨"INV2", "CUST2", 500, 400, 0, "pending", ⟨2024, 4, 1⟩⟩

def cm1 : CreditMemo :=
  ⟨"CM1", "CUST1", "INV1", 50, "damaged item", "draft", none, none, none, none⟩

def cm2 : CreditMemo :=
  ⟨"CM2", "CUST1", "INV1", 5000, "major damage", "draft", none, none, none, none⟩

def demoState : ServiceState :=
  ⟨[cust1, cust2], [cr2, cr1, cr3, cr4, cr5], [inv1, inv2], [cm1, cm2]⟩

/-- Variant of the demo table whose active credits appear in ascending
earnedDate order. -/
def demoStateSorted : ServiceState :=
  ⟨[cust1, cust2], [cr1, cr2, cr5], [inv1, inv2], [cm1, cm2]⟩

def custX : Customer := ⟨"CUSTX", "Xavier Quinn", "x@example.com", []⟩

/-- Grant holding four tenths of a cent. -/
def tinyA : CreditGrant :=
  ⟨"TC1", "CUSTX", 1/250, 1/250, ⟨2024, 1, 1⟩, ⟨2030, 1, 1⟩, "active", "promo", "tiny a"⟩

def tinyB : CreditGrant :=
  ⟨"TC2", "CUSTX", 1/250, 1/250, ⟨2024, 2, 1⟩, ⟨2030, 1, 1⟩, "active", "promo", "tiny b"⟩

def invX : Invoice := ⟨"INVX", "CUSTX", 10, 10, 0, "pending", ⟨2024, 5, 1⟩⟩

/-- State whose grant amounts are not whole cents: two grants of 0.004. -/
def subCentState : ServiceState := ⟨[custX], [tinyA, tinyB], [invX], []⟩

/-- Relation produced by one pass of the FIFO loop over a referenced row:
either untouched, or decremented by a positive consumed portion; consumed
rows are active rows, so their expiry lies in the future. -/
def consumedRel (now : Date) (cid : String) (p q : Nat × CreditGrant) : Prop :=
  q.1 = p.1 ∧
    (q.2 = p.2 ∨
      ∃ u, 0 < u ∧ u ≤ p.2.amount ∧ now.key < p.2.expiryDate.key ∧
        p.2.customerId = cid ∧ q.2 = consumeGrant p.2 u)

/-- States in which every row already classified expired carries the expired
status, so the lazy-expiry pass is a no-op. -/
def ExpiryClean (now : Date) (cid : String) (s : ServiceState) : Prop :=
  ∀ c ∈ s.credits, c.customerId = cid → classify now c = .expired → c.status = "expired"

/-! Association-list lookup lemmas. -/

theorem alookup_mem {k : Nat} {c : CreditGrant} :
    ∀ {l : List (Nat × CreditGrant)}, alookup k l = some c → (k, c) ∈ l := by
  intro l
  induction l with
  | nil => intro h; simp [alookup] at h
  | cons p rest ih =>
    intro h
    simp only [alookup] at h
    split at h
    · rename_i hp
      obtain ⟨i, g⟩ := p
      simp_all
    · exact List.mem_cons_of_mem _ (ih h)

theorem alookup_eq_none {k : Nat} :
    ∀ {l : List (Nat × CreditGrant)}, (∀ p ∈ l, p.1 ≠ k) → alookup k l = none := by
  intro l
  induction l with
  | nil => intro _; rfl
  | cons p rest ih =>
    intro h
    simp only [alookup]
    rw [if_neg (h p (List.mem_cons_self p rest)), ih]
    intro q hq
    exact h q (List.mem_cons_of_mem _ hq)

theorem alookup_eq_some {k : Nat} {c : CreditGrant} :
    ∀ {l : List (Nat × CreditGrant)}, (l.map Prod.fst).Nodup → (k, c) ∈ l →
      alookup k l = some c := by
  intro l
  induction l with
  | nil => intro _ hm; simp at hm
  | cons p rest ih =>
    intro hnd hm
    simp only [List.map_cons, List.nodup_cons] at hnd
    rcases List.mem_cons.1 hm with heq | hmem
    · simp [alookup, ← heq]
    · simp only [alookup]
      split
      · rename_i hp
        exfalso
        exact hnd.1 (hp ▸ List.mem_map_of_mem Prod.fst hmem)
      · exact ih hnd.2 hmem

/-! Sum bookkeeping helpers. -/

theorem sum_map_filter_split {α : Type} (p : α → Bool) (f : α → ℚ) (l : List α) :
    (l.map f).sum
      = ((l.filter p).map f).sum + ((l.filter (fun a => !(p a))).map f).sum := by
  induction l with
  | nil => simp
  | cons a rest ih =>
    by_cases h : p a <;> simp [h, ih] <;> ring

/-! Lemmas about the FIFO consumption loop. -/

theorem fifoConsume_map_fst (rem : ℚ) :
    ∀ l : List (Nat × CreditGrant), ((fifoConsume l rem).1).map Prod.fst = l.map Prod.fst := by
  intro l
  induction l generalizing rem with
  | nil => simp [fifoConsume]
  | cons p rest ih =>
    obtain ⟨i, c⟩ := p
    simp only [fifoConsume]
    split
    · rfl
    · simp [ih]

theorem fifoConsume_rel (now : Date) (cid : String) (rem : ℚ) :
    ∀ l : List (Nat × CreditGrant), (∀ p ∈ l, 0 < p.2.amount) →
      (∀ p ∈ l, now.key < p.2.expiryDate.key) →
      (∀ p ∈ l, p.2.customerId = cid) →
      List.Forall₂ (consumedRel now cid) l (fifoConsume l rem).1 := by
  intro l
  induction l generalizing rem with
  | nil => intro _ _ _; simp [fifoConsume]
  | cons p rest ih =>
    intro hpos hexp hcid
    obtain ⟨i, c⟩ := p
    simp only [fifoConsume]
    split
    · exact List.forall₂_same.2 (fun x _ => ⟨rfl, Or.inl rfl⟩)
    · rename_i hrem
      refine List.Forall₂.cons ⟨rfl, Or.inr ⟨min c.amount rem, ?_, min_le_left _ _,
        hexp (i, c) (List.mem_cons_self _ _), hcid (i, c) (List.mem_cons_self _ _), rfl⟩⟩
        (ih _ (fun q hq => hpos q (List.mem_cons_of_mem _ hq))
          (fun q hq => hexp q (List.mem_cons_of_mem _ hq))
          (fun q hq => hcid q (List.mem_cons_of_mem _ hq)))
      exact lt_min (hpos (i, c) (List.mem_cons_self _ _)) (lt_of_not_le hrem)

theorem fifoConsume_sum (rem : ℚ) :
    ∀ l : List (Nat × CreditGrant),
      (((fifoConsume l rem).1).map (fun p => p.2.amount)).sum
        = ((l.map (fun p => p.2.amount)).sum) - (rem - (fifoConsume l rem).2.2) := by
  intro l
  induction l generalizing rem with
  | nil => simp [fifoConsume]
  | cons p rest ih =>
    obtain ⟨i, c⟩ := p
    simp only [fifoConsume]
    split
    · simp
    · simp only [List.map_cons, List.sum_cons, consumeGrant]
      rw [ih (rem - min c.amount rem)]
      ring

theorem fifoConsume_rem (rem : ℚ) :
    ∀ l : List (Nat × CreditGrant), 0 ≤ rem → (∀ p ∈ l, 0 ≤ p.2.amount) →
      (fifoConsume l rem).2.2 = max 0 (rem - (l.map (fun p => p.2.amount)).sum) := by
  intro l
  induction l generalizing rem with
  | nil =>
    intro h0 _
    simp [fifoConsume, max_eq_right h0]
  | cons p rest ih =>
    intro h0 hpos
    obtain ⟨i, c⟩ := p
    have hsum : (0 : ℚ) ≤ ((rest.map (fun p => p.2.amount)).sum) := by
      apply List.sum_nonneg
      intro x hx
      obtain ⟨q, hq, rfl⟩ := List.mem_map.1 hx
      exact hpos q (List.mem_cons_of_mem _ hq)
    simp only [fifoConsume]
    split
    · rename_i hrem
      have hz : rem = 0 := le_antisymm hrem h0
      subst hz
      have hc : (0 : ℚ) ≤ c.amount := hpos (i, c) (List.mem_cons_self _ _)
      rw [max_eq_left]
      simp only [List.map_cons, List.sum_cons]
      linarith
    · rename_i hrem
      have hlt : (0 : ℚ) < rem := lt_of_not_le hrem
      rw [ih (rem - min c.amount rem) (by simp [min_le_right])
        (fun q hq => hpos q (List.mem_cons_of_mem _ hq))]
      simp only [List.map_cons, List.sum_cons]
      rcases le_total c.amount rem with hca | hca
      · rw [min_eq_left hca]
        congr 1
        ring
      · rw [min_eq_right hca]
        simp only [sub_self]
        rw [max_eq_left (by linarith), max_eq_left (by linarith)]

theorem fifoConsume_rem_zero (rem : ℚ) (l : List (Nat × CreditGrant))
    (h0 : 0 ≤ rem) (hpos : ∀ p ∈ l, 0 ≤ p.2.amount)
    (hle : rem ≤ (l.map (fun p => p.2.amount)).sum) :
    (fifoConsume l rem).2.2 = 0 := by
  rw [fifoConsume_rem rem l h0 hpos]
  rw [max_eq_left (by linarith)]

theorem fifoConsume_records (rem : ℚ) :
    ∀ l : List (Nat × CreditGrant),
      ((fifoConsume l rem).2.1).map (fun r => (r.credit_id, r.amount_used))
        = (specFifoWalk (l.map Prod.snd) rem).1 := by
  intro l
  induction l generalizing rem with
  | nil => simp [fifoConsume, specFifoWalk]
  | cons p rest ih =>
    obtain ⟨i, c⟩ := p
    simp only [fifoConsume, List.map_cons, specFifoWalk]
    split
    · rfl
    · simp only [List.map_cons, ih, min_comm c.amount rem]

theorem coverLoop_records (rem : ℚ) :
    ∀ l : List CreditGrant,
      ((coverLoop l rem).1).map (fun r => (r.id, r.amount)) = (specFifoWalk l rem).1 := by
  intro l
  induction l generalizing rem with
  | nil => simp [coverLoop, specFifoWalk]
  | cons c rest ih =>
    simp only [coverLoop, specFifoWalk]
    split
    · rfl
    · have huse : (if c.amount > rem then rem else c.amount) = min rem c.amount := by
        rcases lt_or_le rem c.amount with h | h
        · rw [if_pos h, min_eq_left (le_of_lt h)]
        · rw [if_neg (not_lt.2 h), min_eq_right h]
      simp only [huse, List.map_cons, ih]

/-! Lemmas about classification and the lazy-expiry fix. -/

theorem classify_expired_expiry {now : Date} {c : CreditGrant}
    (h : classify now c = .expired) : c.expiryDate.key ≤ now.key := by
  unfold classify at h
  split at h
  · simp at h
  · split at h
    · assumption
    · split at h <;> simp at h

theorem classify_expired_status {now : Date} {c : CreditGrant}
    (h : classify now c = .expired) : c.status ≠ "used" ∧ 0 < c.amount := by
  unfold classify at h
  split at h
  · simp at h
  · rename_i hn
    push_neg at hn
    exact ⟨hn.1, hn.2⟩

theorem classify_active_iff {now : Date} {c : CreditGrant} :
    classify now c = .active ↔
      (c.status = "active" ∨ c.status = "partially_used") ∧
        0 < c.amount ∧ now.key < c.expiryDate.key := by
  unfold classify
  constructor
  · intro h
    split at h
    · simp at h
    · split at h
      · simp at h
      · split at h
        · rename_i hexp hact
          exact ⟨hact.1, hact.2, lt_of_not_le hexp⟩
        · simp at h
  · rintro ⟨hst, hamt, hexp⟩
    have hused : ¬(c.status = "used" ∨ c.amount ≤ 0) := by
      rintro (h1 | h1)
      · rcases hst with h2 | h2 <;> rw [h2] at h1 <;> simp at h1
      · exact absurd hamt (not_lt.2 h1)
    rw [if_neg hused, if_neg (not_le.2 hexp), if_pos ⟨hst, hamt⟩]

theorem classify_expireGrant {now : Date} {c : CreditGrant}
    (h : classify now c = .expired) : classify now (expireGrant c) = .expired := by
  obtain ⟨hst, hamt⟩ := classify_expired_status h
  have hexp := classify_expired_expiry h
  unfold classify expireGrant
  rw [if_neg, if_pos hexp]
  simp only []
  rintro (h1 | h1)
  · simp at h1
  · exact absurd hamt (not_lt.2 h1)

theorem classify_fixExpired (now : Date) (cid : String) (c : CreditGrant) :
    classify now (fixExpired now cid c) = classify now c := by
  unfold fixExpired
  split
  · rename_i hc
    rw [classify_expireGrant hc.2, hc.2]
  · rfl

theorem fixExpired_customerId (now : Date) (cid : String) (c : CreditGrant) :
    (fixExpired now cid c).customerId = c.customerId := by
  unfold fixExpired expireGrant
  split <;> rfl

theorem fixExpired_amount (now : Date) (cid : String) (c : CreditGrant) :
    (fixExpired now cid c).amount = c.amount := by
  unfold fixExpired expireGrant
  split <;> rfl

theorem fixExpired_of_not_expired {now : Date} {cid : String} {c : CreditGrant}
    (h : classify now c ≠ .expired) : fixExpired now cid c = c := by
  unfold fixExpired
  rw [if_neg]
  rintro ⟨_, h2⟩
  exact h h2

theorem expireGrant_of_status {c : CreditGrant} (h : c.status = "expired") :
    expireGrant c = c := by
  unfold expireGrant
  cases c
  simp_all

theorem fixExpired_eq_self {now : Date} {cid : String} {c : CreditGrant}
    (h : c.customerId = cid → classify now c = .expired → c.status = "expired") :
    fixExpired now cid c = c := by
  unfold fixExpired
  split
  · rename_i hc
    exact expireGrant_of_status (h hc.1 hc.2)
  · rfl

theorem expireGrant_idem (c : CreditGrant) : expireGrant (expireGrant c) = expireGrant c := rfl

theorem classify_expired_iff {now : Date} {c : CreditGrant} :
    classify now c = .expired ↔
      (c.status ≠ "used" ∧ 0 < c.amount) ∧ c.expiryDate.key ≤ now.key := by
  constructor
  · intro h
    exact ⟨classify_expired_status h, classify_expired_expiry h⟩
  · rintro ⟨⟨hst, hamt⟩, hexp⟩
    unfold classify
    rw [if_neg, if_pos hexp]
    rintro (h1 | h1)
    · exact hst h1
    · exact absurd hamt (not_lt.2 h1)

theorem activeP_eq (now : Date) (cid : String) (c : CreditGrant) :
    (classify now c == Bucket.active && c.customerId == cid) = isActiveCredit now cid c := by
  rw [Bool.eq_iff_iff]
  unfold isActiveCredit
  simp only [Bool.and_eq_true, Bool.or_eq_true, beq_iff_eq, decide_eq_true_eq]
  constructor
  · rintro ⟨hcl, hcid⟩
    obtain ⟨hst, hamt, hexp⟩ := classify_active_iff.1 hcl
    exact ⟨⟨⟨hcid, hst⟩, hamt⟩, hexp⟩
  · rintro ⟨⟨⟨hcid, hst⟩, hamt⟩, hexp⟩
    exact ⟨classify_active_iff.2 ⟨hst, hamt, hexp⟩, hcid⟩

theorem isActive_classify {now : Date} {cid : String} {c : CreditGrant}
    (h : isActiveCredit now cid c = true) : classify now c = .active ∧ c.customerId = cid := by
  rw [← activeP_eq] at h
  simp only [Bool.and_eq_true, beq_iff_eq] at h
  exact h

theorem isActive_fixExpired (now : Date) (cid : String) (c : CreditGrant) :
    isActiveCredit now cid (fixExpired now cid c) = isActiveCredit now cid c := by
  rw [← activeP_eq, ← activeP_eq, classify_fixExpired, fixExpired_customerId]

/-- Projection of an indexed filter back to the plain filtered list. -/
theorem enumFrom_filter_map {α β : Type} (q : α → Bool) (f : α → β) :
    ∀ (n : Nat) (l : List α),
      (((l.enumFrom n).filter (fun p => q p.2)).map (fun p => f p.2)) = (l.filter q).map f := by
  intro n l
  induction l generalizing n with
  | nil => rfl
  | cons a rest ih =>
    simp only [List.enumFrom_cons, List.filter_cons]
    by_cases h : q a
    · simp only [h, if_pos, List.map_cons, ih]
    · simp only [h, Bool.false_eq_true, if_neg, ih, not_false_iff]

/-- Filtering and projecting after the lazy-expiry map gives the same result
as before it, for bucket predicates invariant under the fix. -/
theorem filter_map_fix_congr {β : Type} (fix : CreditGrant → CreditGrant)
    (q : CreditGrant → Bool) (f : CreditGrant → β)
    (hq : ∀ c, q (fix c) = q c) (hf : ∀ c, q c = true → f (fix c) = f c) :
    ∀ l : List CreditGrant, ((l.map fix).filter q).map f = (l.filter q).map f := by
  intro l
  induction l with
  | nil => rfl
  | cons a rest ih =>
    simp only [List.map_cons, List.filter_cons, hq]
    by_cases h : q a
    · simp only [h, if_pos, List.map_cons, ih, hf a h]
    · simp only [h, Bool.false_eq_true, if_neg, ih, not_false_iff]

/-- The indexed active filter is unchanged by the lazy-expiry map. -/
theorem enumFrom_filter_active_fix (now : Date) (cid : String) :
    ∀ (n : Nat) (l : List CreditGrant),
      (((l.map (fixExpired now cid)).enumFrom n).filter (fun p => isActiveCredit now cid p.2))
        = ((l.enumFrom n).filter (fun p => isActiveCredit now cid p.2)) := by
  intro n l
  induction l generalizing n with
  | nil => rfl
  | cons a rest ih =>
    simp only [List.map_cons, List.enumFrom_cons, List.filter_cons]
    by_cases h : isActiveCredit now cid a
    · have hfix : fixExpired now cid a = a :=
        fixExpired_of_not_expired (by rw [(isActive_classify h).1]; intro hc; cases hc)
      simp only [hfix, h, if_pos, ih]
    · have : isActiveCredit now cid (fixExpired now cid a) = false := by
        rw [isActive_fixExpired]
        exact Bool.of_not_eq_true h
      simp only [this, h, Bool.false_eq_true, if_neg, ih, not_false_iff]

theorem calc_snd (s : ServiceState) (cust : Customer) (now : Date) :
    (calculate_available_credits s cust now).2
      = { s with credits := s.credits.map (fixExpired now cust.id) } := rfl

theorem fixExpired_clean (now : Date) (cid : String) (c : CreditGrant) :
    (fixExpired now cid c).customerId = cid → classify now (fixExpired now cid c) = .expired →
      (fixExpired now cid c).status = "expired" := by
  unfold fixExpired
  split
  · intro _ _; rfl
  · rename_i hcond
    intro h1 h2
    exact absurd ⟨h1, h2⟩ hcond

theorem calc_clean (s : ServiceState) (cust : Customer) (now : Date) :
    ExpiryClean now cust.id (calculate_available_credits s cust now).2 := by
  intro c hc hcid hcl
  rw [calc_snd] at hc
  simp only at hc
  obtain ⟨c0, _, rfl⟩ := List.mem_map.1 hc
  exact fixExpired_clean now cust.id c0 hcid hcl

theorem calc_noop {s : ServiceState} {cust : Customer} {now : Date}
    (h : ExpiryClean now cust.id s) : (calculate_available_credits s cust now).2 = s := by
  rw [calc_snd]
  have hmap : s.credits.map (fixExpired now cust.id) = s.credits := by
    have h2 : s.credits.map (fixExpired now cust.id) = s.credits.map (fun c => c) :=
      List.map_congr_left (fun c hc => fixExpired_eq_self (h c hc))
    simpa using h2
  cases s
  simp_all

/-! Flat characterizations of the buckets reported by
calculate_available_credits. -/

theorem calc_active (s : ServiceState) (cust : Customer) (now : Date) :
    (calculate_available_credits s cust now).1.active_credits
      = s.credits.enum.filter (fun p => isActiveCredit now cust.id p.2) := by
  show ((s.credits.enum.filter (fun p => p.2.customerId == cust.id)).filter
      (fun p => classify now p.2 == Bucket.active)) = _
  rw [List.filter_filter]
  exact List.filter_congr (fun p _ => activeP_eq now cust.id p.2)

theorem calc_expired (s : ServiceState) (cust : Customer) (now : Date) :
    (calculate_available_credits s cust now).1.expired_credits
      = ((s.credits.filter
          (fun c => classify now c == Bucket.expired && c.customerId == cust.id)).map
            expireGrant) := by
  show (((s.credits.enum.filter (fun p => p.2.customerId == cust.id)).filter
      (fun p => classify now p.2 == Bucket.expired)).map (fun p => expireGrant p.2)) = _
  rw [List.filter_filter]
  exact enumFrom_filter_map
    (fun c => classify now c == Bucket.expired && c.customerId == cust.id) expireGrant 0 s.credits

theorem calc_used (s : ServiceState) (cust : Customer) (now : Date) :
    (calculate_available_credits s cust now).1.used_credits
      = s.credits.filter (fun c => classify now c == Bucket.used && c.customerId == cust.id) := by
  show (((s.credits.enum.filter (fun p => p.2.customerId == cust.id)).filter
      (fun p => classify now p.2 == Bucket.used)).map Prod.snd) = _
  rw [List.filter_filter]
  have h := enumFrom_filter_map
    (fun c => classify now c == Bucket.used && c.customerId == cust.id) (fun c => c) 0 s.credits
  simpa using h

theorem calc_active_amounts (s : ServiceState) (cust : Customer) (now : Date) :
    ((calculate_available_credits s cust now).1.active_credits.map (fun p => p.2.amount))
      = (get_customer_active_credits s cust.id now).map (fun c => c.amount) := by
  rw [calc_active]
  exact enumFrom_filter_map (isActiveCredit now cust.id) (fun c => c.amount) 0 s.credits

theorem calc_total (s : ServiceState) (cust : Customer) (now : Date) :
    (calculate_available_credits s cust now).1.total_available
      = calculate_total_active_credits s cust.id now := by
  show quantizeCents
      ((((s.credits.enum.filter (fun p => p.2.customerId == cust.id)).filter
        (fun p => classify now p.2 == Bucket.active)).map (fun p => p.2.amount)).sum) = _
  unfold calculate_total_active_credits
  congr 1
  have h := calc_active_amounts s cust now
  rw [calc_active] at h
  rw [List.filter_filter]
  rw [show (fun (p : Nat × CreditGrant) =>
      classify now p.2 == Bucket.active && p.2.customerId == cust.id)
    = (fun p => isActiveCredit now cust.id p.2) from funext (fun p => activeP_eq now cust.id p.2)]
  rw [h]

theorem creditInfo_ext {a b : CreditInfo}
    (h1 : a.total_available = b.total_available) (h2 : a.active_credits = b.active_credits)
    (h3 : a.expired_credits = b.expired_credits) (h4 : a.used_credits = b.used_credits) :
    a = b := by
  cases a; cases b; simp_all

theorem get_active_calc_inv (s : ServiceState) (cust : Customer) (now : Date) :
    get_customer_active_credits (calculate_available_credits s cust now).2 cust.id now
      = get_customer_active_credits s cust.id now := by
  rw [calc_snd]
  show ((s.credits.map (fixExpired now cust.id)).filter
    (fun c => isActiveCredit now cust.id c)) = _
  have h := filter_map_fix_congr (fixExpired now cust.id)
    (fun c => isActiveCredit now cust.id c) (fun c => c)
    (isActive_fixExpired now cust.id)
    (fun c hq => fixExpired_of_not_expired (by simp [(isActive_classify hq).1]))
    s.credits
  simpa using h

/-- Repeating the lazy-expiry read returns the identical report and leaves
the corrected state unchanged. -/
theorem calc_idem (s : ServiceState) (cust : Customer) (now : Date) :
    calculate_available_credits (calculate_available_credits s cust now).2 cust now
      = calculate_available_credits s cust now := by
  have hstate : (calculate_available_credits (calculate_available_credits s cust now).2 cust now).2
      = (calculate_available_credits s cust now).2 :=
    calc_noop (calc_clean s cust now)
  have hact : (calculate_available_credits (calculate_available_credits s cust now).2 cust now).1.active_credits
      = (calculate_available_credits s cust now).1.active_credits := by
    rw [calc_active, calc_active, calc_snd]
    exact enumFrom_filter_active_fix now cust.id 0 s.credits
  have hexp : (calculate_available_credits (calculate_available_credits s cust now).2 cust now).1.expired_credits
      = (calculate_available_credits s cust now).1.expired_credits := by
    rw [calc_expired, calc_expired, calc_snd]
    apply filter_map_fix_congr
    · intro c
      rw [classify_fixExpired, fixExpired_customerId]
    · intro c hq
      simp only [Bool.and_eq_true, beq_iff_eq] at hq
      have hfix : fixExpired now cust.id c = expireGrant c := by
        unfold fixExpired
        rw [if_pos ⟨hq.2, hq.1⟩]
      rw [hfix, expireGrant_idem]
  have hused : (calculate_available_credits (calculate_available_credits s cust now).2 cust now).1.used_credits
      = (calculate_available_credits s cust now).1.used_credits := by
    rw [calc_used, calc_used, calc_snd]
    have h := filter_map_fix_congr (fixExpired now cust.id)
      (fun c => classify now c == Bucket.used && c.customerId == cust.id) (fun c => c)
      (fun c => by simp only [classify_fixExpired, fixExpired_customerId])
      (fun c hq => by
        simp only [Bool.and_eq_true, beq_iff_eq] at hq
        exact fixExpired_of_not_expired (by simp [hq.1]))
      s.credits
    simpa using h
  have htot : (calculate_available_credits (calculate_available_credits s cust now).2 cust now).1.total_available
      = (calculate_available_credits s cust now).1.total_available := by
    rw [calc_total, calc_total]
    unfold calculate_total_active_credits
    rw [get_active_calc_inv]
  exact Prod.ext (creditInfo_ext htot hact hexp hused) hstate

/-! Generic helpers for the indexed write-back of the FIFO loop. -/

theorem forall₂_mem_right {α β : Type} {R : α → β → Prop} :
    ∀ {l1 : List α} {l2 : List β}, List.Forall₂ R l1 l2 → ∀ b ∈ l2, ∃ a ∈ l1, R a b := by
  intro l1 l2 h
  induction h with
  | nil => intro b hb; simp at hb
  | cons hab _ ih =>
    intro b hb
    rcases List.mem_cons.1 hb with rfl | hb2
    · exact ⟨_, List.mem_cons_self _ _, hab⟩
    · obtain ⟨a, ha, hr⟩ := ih b hb2
      exact ⟨a, List.mem_cons_of_mem _ ha, hr⟩

theorem enum_key_unique {α : Type} {l : List α} {i : Nat} {x y : α}
    (hx : (i, x) ∈ l.enum) (hy : (i, y) ∈ l.enum) : x = y := by
  rw [List.mk_mem_enum_iff_getElem?] at hx hy
  rw [hx] at hy
  exact Option.some.inj hy

theorem mem_of_key_mem {l : List (Nat × CreditGrant)} {i : Nat}
    (h : i ∈ l.map Prod.fst) : ∃ c, (i, c) ∈ l := by
  obtain ⟨q, hq, hfst⟩ := List.mem_map.1 h
  exact ⟨q.2, by rwa [show (i, q.2) = q from Prod.ext hfst.symm rfl]⟩

theorem activePairs_nodup (now : Date) (cid : String) (bl : List CreditGrant) :
    (((bl.enum.filter (fun p => isActiveCredit now cid p.2)).map Prod.fst)).Nodup :=
  ((List.filter_sublist bl.enum).map Prod.fst).nodup (List.nodup_enum_map_fst bl)

theorem isActive_facts {now : Date} {cid : String} {c : CreditGrant}
    (h : isActiveCredit now cid c = true) :
    0 < c.amount ∧ now.key < c.expiryDate.key ∧ c.customerId = cid := by
  unfold isActiveCredit at h
  simp only [Bool.and_eq_true, beq_iff_eq, decide_eq_true_eq] at h
  exact ⟨h.1.2, h.2, h.1.1.1⟩

theorem sorted_active_facts (now : Date) (cid : String) (bl : List CreditGrant) :
    ∀ p ∈ List.insertionSort earnedOrder (activePairs now cid bl),
      0 < p.2.amount ∧ now.key < p.2.expiryDate.key ∧ p.2.customerId = cid ∧ p ∈ bl.enum := by
  intro p hp
  have hp2 : p ∈ activePairs now cid bl :=
    ((List.perm_insertionSort earnedOrder (activePairs now cid bl)).mem_iff).1 hp
  have := List.mem_filter.1 hp2
  obtain ⟨henum, hpred⟩ := this
  obtain ⟨h1, h2, h3⟩ := isActive_facts hpred
  exact ⟨h1, h2, h3, henum⟩

theorem fifo_keys_nodup (now : Date) (cid : String) (bl : List CreditGrant) (a : ℚ) :
    (((fifoConsume (List.insertionSort earnedOrder (activePairs now cid bl)) a).1.map
      Prod.fst)).Nodup := by
  rw [fifoConsume_map_fst]
  have hperm : List.Perm
      ((List.insertionSort earnedOrder (activePairs now cid bl)).map Prod.fst)
      ((activePairs now cid bl).map Prod.fst) :=
    (List.perm_insertionSort _ _).map _
  exact hperm.nodup_iff.2 (activePairs_nodup now cid bl)

theorem fifo_entry_origin (now : Date) (cid : String) (bl : List CreditGrant) (a : ℚ)
    {i : Nat} {c2 : CreditGrant}
    (hmem : (i, c2) ∈ (fifoConsume (List.insertionSort earnedOrder (activePairs now cid bl)) a).1) :
    ∃ c0, (i, c0) ∈ activePairs now cid bl ∧ consumedRel now cid (i, c0) (i, c2) := by
  have hforall := fifoConsume_rel now cid a
    (List.insertionSort earnedOrder (activePairs now cid bl))
    (fun p hp => (sorted_active_facts now cid bl p hp).1)
    (fun p hp => (sorted_active_facts now cid bl p hp).2.1)
    (fun p hp => (sorted_active_facts now cid bl p hp).2.2.1)
  obtain ⟨q, hq, hrel⟩ := forall₂_mem_right hforall (i, c2) hmem
  have hq1 : q.1 = i := hrel.1.symm
  have hq' : q = (i, q.2) := Prod.ext hq1 rfl
  rw [hq'] at hq hrel
  exact ⟨q.2, ((List.perm_insertionSort earnedOrder (activePairs now cid bl)).mem_iff).1 hq, hrel⟩

theorem writeback_lookup_none (now : Date) (cid : String) (bl : List CreditGrant) (a : ℚ)
    {i : Nat} {c : CreditGrant} (hp : (i, c) ∈ bl.enum)
    (hact : isActiveCredit now cid c = false) :
    alookup i (fifoConsume (List.insertionSort earnedOrder (activePairs now cid bl)) a).1
      = none := by
  apply alookup_eq_none
  intro q hq hqi
  have hq' : (i, q.2) ∈ (fifoConsume (List.insertionSort earnedOrder
      (activePairs now cid bl)) a).1 := by
    rw [show (i, q.2) = q from Prod.ext hqi.symm rfl]
    exact hq
  obtain ⟨c0, hc0, _⟩ := fifo_entry_origin now cid bl a hq'
  obtain ⟨hc0enum, hc0pred⟩ := List.mem_filter.1 hc0
  rw [enum_key_unique hc0enum hp] at hc0pred
  rw [hact] at hc0pred
  cases hc0pred

theorem writeback_forall₂ (now : Date) (cid : String) (bl : List CreditGrant) (a : ℚ) :
    List.Forall₂
      (fun c c2 => c2 = c ∨ ∃ u, 0 < u ∧ u ≤ c.amount ∧ now.key < c.expiryDate.key ∧
        c.customerId = cid ∧ c2 = consumeGrant c u)
      bl
      (bl.enum.map (fun p =>
        (alookup p.1
          (fifoConsume (List.insertionSort earnedOrder (activePairs now cid bl)) a).1).getD
        p.2)) := by
  have hsnd : bl.enum.map Prod.snd = bl := by
    rw [List.enum]
    exact List.enumFrom_map_snd 0 bl
  conv_lhs => rw [← hsnd]
  rw [List.forall₂_map_left_iff, List.forall₂_map_right_iff, List.forall₂_same]
  intro p hp
  obtain ⟨i, c⟩ := p
  cases halk : alookup i
      (fifoConsume (List.insertionSort earnedOrder (activePairs now cid bl)) a).1 with
  | none => left; simp [halk]
  | some c2 =>
    have hmem := alookup_mem halk
    obtain ⟨c0, hc0, hrel⟩ := fifo_entry_origin now cid bl a hmem
    obtain ⟨hc0enum, _⟩ := List.mem_filter.1 hc0
    have hc0c : c0 = c := enum_key_unique hc0enum hp
    subst hc0c
    rcases hrel.2 with heq | ⟨u, hu1, hu2, hu3, hu4, hu5⟩
    · left
      simp only [halk, Option.getD_some]
      exact heq
    · right
      exact ⟨u, hu1, hu2, hu3, hu4, by simp only [halk, Option.getD_some]; exact hu5⟩

theorem writeback_sum (now : Date) (cid : String) (bl : List CreditGrant) (a : ℚ) :
    (bl.enum.map (fun p =>
        ((alookup p.1
          (fifoConsume (List.insertionSort earnedOrder (activePairs now cid bl)) a).1).getD
          p.2).amount)).sum
      = (bl.map (fun c => c.amount)).sum
          - (a - (fifoConsume (List.insertionSort earnedOrder (activePairs now cid bl)) a).2.2) := by
  have hbl : (bl.map (fun c => c.amount)) = bl.enum.map (fun p => p.2.amount) := by
    have h0 : bl.enum.map Prod.snd = bl := by
      rw [List.enum]
      exact List.enumFrom_map_snd 0 bl
    conv_lhs => rw [← h0]
    rw [List.map_map]
    rfl
  rw [hbl]
  rw [sum_map_filter_split (fun p => isActiveCredit now cid p.2)
    (fun p => ((alookup p.1
      (fifoConsume (List.insertionSort earnedOrder (activePairs now cid bl)) a).1).getD
      p.2).amount) bl.enum]
  rw [sum_map_filter_split (fun p => isActiveCredit now cid p.2)
    (fun p => p.2.amount) bl.enum]
  have hinactive :
      ((bl.enum.filter (fun p => !(isActiveCredit now cid p.2))).map (fun p =>
        ((alookup p.1
          (fifoConsume (List.insertionSort earnedOrder (activePairs now cid bl)) a).1).getD
          p.2).amount))
      = ((bl.enum.filter (fun p => !(isActiveCredit now cid p.2))).map
          (fun p => p.2.amount)) := by
    apply List.map_congr_left
    intro p hp
    obtain ⟨i, c⟩ := p
    obtain ⟨henum, hneg⟩ := List.mem_filter.1 hp
    have hfalse : isActiveCredit now cid c = false := by
      cases h : isActiveCredit now cid c
      · rfl
      · rw [h] at hneg; cases hneg
    rw [writeback_lookup_none now cid bl a henum hfalse]
    rfl
  have hactive :
      (((bl.enum.filter (fun p => isActiveCredit now cid p.2)).map (fun p =>
        ((alookup p.1
          (fifoConsume (List.insertionSort earnedOrder (activePairs now cid bl)) a).1).getD
          p.2).amount)).sum)
      = (((fifoConsume (List.insertionSort earnedOrder (activePairs now cid bl)) a).1.map
          (fun q => q.2.amount)).sum) := by
    have hstep1 :
        ((bl.enum.filter (fun p => isActiveCredit now cid p.2)).map (fun p =>
          ((alookup p.1
            (fifoConsume (List.insertionSort earnedOrder (activePairs now cid bl)) a).1).getD
            p.2).amount))
        = ((bl.enum.filter (fun p => isActiveCredit now cid p.2)).map (fun p =>
            ((alookup p.1
              (fifoConsume (List.insertionSort earnedOrder (activePairs now cid bl)) a).1).map
              (fun c => c.amount)).getD 0)) := by
      apply List.map_congr_left
      intro p hp
      obtain ⟨i, c⟩ := p
      have hkey : i ∈ ((fifoConsume (List.insertionSort earnedOrder
          (activePairs now cid bl)) a).1.map Prod.fst) := by
        rw [fifoConsume_map_fst]
        have hkperm : List.Perm ((activePairs now cid bl).map Prod.fst)
            ((List.insertionSort earnedOrder (activePairs now cid bl)).map Prod.fst) :=
          ((List.perm_insertionSort earnedOrder (activePairs now cid bl)).symm).map _
        apply hkperm.mem_iff.1
        exact List.mem_map_of_mem Prod.fst hp
      obtain ⟨c2, hc2⟩ := mem_of_key_mem hkey
      rw [alookup_eq_some (fifo_keys_nodup now cid bl a) hc2]
      rfl
    rw [hstep1]
    have hstep2 :
        ((bl.enum.filter (fun p => isActiveCredit now cid p.2)).map (fun p =>
          ((alookup p.1
            (fifoConsume (List.insertionSort earnedOrder (activePairs now cid bl)) a).1).map
            (fun c => c.amount)).getD 0))
        = (((bl.enum.filter (fun p => isActiveCredit now cid p.2)).map Prod.fst).map (fun i =>
            ((alookup i
              (fifoConsume (List.insertionSort earnedOrder (activePairs now cid bl)) a).1).map
              (fun c => c.amount)).getD 0)) := by
      rw [List.map_map]
      rfl
    rw [hstep2]
    have hpermsum : List.Perm
        (((bl.enum.filter (fun p => isActiveCredit now cid p.2)).map Prod.fst).map (fun i =>
          ((alookup i
            (fifoConsume (List.insertionSort earnedOrder (activePairs now cid bl)) a).1).map
            (fun c => c.amount)).getD 0))
        ((((fifoConsume (List.insertionSort earnedOrder (activePairs now cid bl)) a).1.map
            Prod.fst)).map (fun i =>
          ((alookup i
            (fifoConsume (List.insertionSort earnedOrder (activePairs now cid bl)) a).1).map
            (fun c => c.amount)).getD 0)) := by
      apply List.Perm.map
      rw [fifoConsume_map_fst]
      exact ((List.perm_insertionSort earnedOrder (activePairs now cid bl)).symm).map _
    rw [hpermsum.sum_eq]
    rw [List.map_map]
    apply congrArg
    apply List.map_congr_left
    intro q hq
    have hq' : (q.1, q.2) ∈ (fifoConsume (List.insertionSort earnedOrder
        (activePairs now cid bl)) a).1 := hq
    rw [Function.comp_apply, alookup_eq_some (fifo_keys_nodup now cid bl a) hq']
    rfl
  rw [hinactive, hactive]
  rw [fifoConsume_sum]
  have hsorted_sum :
      (((List.insertionSort earnedOrder (activePairs now cid bl)).map
        (fun p => p.2.amount)).sum)
      = (((bl.enum.filter (fun p => isActiveCredit now cid p.2)).map
          (fun p => p.2.amount)).sum) := by
    apply List.Perm.sum_eq
    exact (List.perm_insertionSort earnedOrder (activePairs now cid bl)).map _
  rw [hsorted_sum]
  ring

/-! Unfolding the success path of apply_credits. -/

theorem find_customer_congr {s1 s2 : ServiceState} (h : s1.customers = s2.customers)
    (customer_id customer_name : String) :
    find_customer s1 customer_id customer_name = find_customer s2 customer_id customer_name := by
  unfold find_customer
  rw [h]

theorem find_invoice_congr {s1 s2 : ServiceState} (h : s1.invoices = s2.invoices)
    (invoice_id : String) (customer_id : Option String) :
    find_invoice s1 invoice_id customer_id = find_invoice s2 invoice_id customer_id := by
  unfold find_invoice
  rw [h]

theorem consumeGrant_customerId (c : CreditGrant) (u : ℚ) :
    (consumeGrant c u).customerId = c.customerId := rfl

theorem consumeGrant_expiryDate (c : CreditGrant) (u : ℚ) :
    (consumeGrant c u).expiryDate = c.expiryDate := rfl

theorem consumeGrant_id (c : CreditGrant) (u : ℚ) : (consumeGrant c u).id = c.id := rfl

theorem validate_state_eq (s : ServiceState) (now : Date)
    (customer_id customer_name : String) (a : ℚ) (invoice_id : String)
    {cust : Customer} {ix : Nat} {inv : Invoice}
    (hcust : find_customer s customer_id customer_name = some cust)
    (hinv : find_invoice s invoice_id (some cust.id) = some (ix, inv)) :
    (validate_credit_application s now customer_id customer_name a invoice_id).2
      = (calculate_available_credits s cust now).2 := by
  simp only [validate_credit_application, hcust, hinv]
  split_ifs <;> rfl

theorem validate_succ_conditions (s : ServiceState) (now : Date)
    (customer_id customer_name : String) (a : ℚ) (invoice_id : String)
    {cust : Customer} {ix : Nat} {inv : Invoice}
    (hcust : find_customer s customer_id customer_name = some cust)
    (hinv : find_invoice s invoice_id (some cust.id) = some (ix, inv))
    (hsucc : (validate_credit_application s now customer_id customer_name a invoice_id).1.success
      = true) :
    a ≤ (calculate_available_credits s cust now).1.total_available ∧ a ≤ inv.currentAmount := by
  simp only [validate_credit_application, hcust, hinv] at hsucc
  split_ifs at hsucc with h1 h2 h3 <;>
    exact ⟨le_of_not_lt h1, le_of_not_lt h2⟩

theorem writeback_preserves_clean (now : Date) (cid : String) (bl : List CreditGrant) (a : ℚ)
    (hclean : ∀ c ∈ bl, c.customerId = cid → classify now c = .expired → c.status = "expired") :
    ∀ c2 ∈ bl.enum.map (fun p =>
        (alookup p.1
          (fifoConsume (List.insertionSort earnedOrder (activePairs now cid bl)) a).1).getD
        p.2),
      c2.customerId = cid → classify now c2 = .expired → c2.status = "expired" := by
  intro c2 hc2 hcid hcl
  obtain ⟨c, hc, hrel⟩ := forall₂_mem_right (writeback_forall₂ now cid bl a) c2 hc2
  rcases hrel with heq | ⟨u, _, _, hexp, _, heq⟩
  · rw [heq] at hcid hcl ⊢
    exact hclean c hc hcid hcl
  · exfalso
    rw [heq] at hcl
    have := classify_expired_expiry hcl
    rw [consumeGrant_expiryDate] at this
    exact absurd this (not_le.2 hexp)

theorem serviceState_ext {a b : ServiceState}
    (h1 : a.customers = b.customers) (h2 : a.credits = b.credits)
    (h3 : a.invoices = b.invoices) (h4 : a.creditMemos = b.creditMemos) : a = b := by
  cases a; cases b; simp_all

theorem map_fix_clean (s : ServiceState) (cust : Customer) (now : Date) :
    ∀ c ∈ s.credits.map (fixExpired now cust.id),
      c.customerId = cust.id → classify now c = .expired → c.status = "expired" := by
  intro c hc
  obtain ⟨c0, _, rfl⟩ := List.mem_map.1 hc
  exact fixExpired_clean now cust.id c0

/-- Full normal form of a successful apply_credits call: the credits table is
the lazy-expiry fix followed by the indexed FIFO write-back, the invoice is
decremented by exactly the requested amount, and nothing else changes. -/
theorem apply_credits_success (s : ServiceState) (now : Date)
    (customer_id customer_name : String) (a : ℚ) (invoice_id : String)
    (cust : Customer) (ix : Nat) (inv : Invoice)
    (hcust : find_customer s customer_id customer_name = some cust)
    (hinv : find_invoice s invoice_id (some cust.id) = some (ix, inv))
    (hsucc : (validate_credit_application s now customer_id customer_name a invoice_id).1.success
      = true) :
    apply_credits s now customer_id customer_name a invoice_id
      = (ApplyOutcome.applied
          { customer_id := cust.id, customer_name := cust.name, customer_email := cust.email,
            invoice_id := inv.id,
            original_invoice_amount := inv.originalAmount,
            previous_invoice_amount := inv.currentAmount,
            credit_amount_applied := a,
            new_invoice_amount := inv.currentAmount - a,
            remaining_credits := calculate_total_active_credits
              ⟨s.customers,
               (s.credits.map (fixExpired now cust.id)).enum.map (fun p =>
                 (alookup p.1 (fifoConsume (List.insertionSort earnedOrder
                   (activePairs now cust.id (s.credits.map (fixExpired now cust.id)))) a).1).getD
                 p.2),
               s.invoices.set ix { inv with currentAmount := inv.currentAmount - a, creditsApplied := inv.creditsApplied + a },
               s.creditMemos⟩ cust.id now }
          (fifoConsume (List.insertionSort earnedOrder
            (activePairs now cust.id (s.credits.map (fixExpired now cust.id)))) a).2.1,
        ⟨s.customers,
         (s.credits.map (fixExpired now cust.id)).enum.map (fun p =>
           (alookup p.1 (fifoConsume (List.insertionSort earnedOrder
             (activePairs now cust.id (s.credits.map (fixExpired now cust.id)))) a).1).getD
           p.2),
         s.invoices.set ix { inv with currentAmount := inv.currentAmount - a, creditsApplied := inv.creditsApplied + a },
         s.creditMemos⟩) := by
  have hval2 : (validate_credit_application s now customer_id customer_name a invoice_id).2
      = (calculate_available_credits s cust now).2 :=
    validate_state_eq s now customer_id customer_name a invoice_id hcust hinv
  have hfc2 : find_customer
      (validate_credit_application s now customer_id customer_name a invoice_id).2
      customer_id customer_name = some cust := by
    rw [hval2, find_customer_congr (show ((calculate_available_credits s cust now).2).customers
      = s.customers from rfl)]
    exact hcust
  have hfi2 : find_invoice
      (validate_credit_application s now customer_id customer_name a invoice_id).2
      invoice_id (some cust.id) = some (ix, inv) := by
    rw [hval2, find_invoice_congr (show ((calculate_available_credits s cust now).2).invoices
      = s.invoices from rfl)]
    exact hinv
  have hci : calculate_available_credits
      (validate_credit_application s now customer_id customer_name a invoice_id).2 cust now
      = calculate_available_credits s cust now := by
    rw [hval2]
    exact calc_idem s cust now
  have hact : (calculate_available_credits s cust now).1.active_credits
      = activePairs now cust.id (s.credits.map (fixExpired now cust.id)) := by
    rw [calc_active]
    exact (enumFrom_filter_active_fix now cust.id 0 s.credits).symm
  have hcred : (calculate_available_credits s cust now).2.credits
      = s.credits.map (fixExpired now cust.id) := by
    rw [calc_snd]
  simp only [apply_credits, hsucc, if_true, hfc2, hfi2, hci, hact, hcred]
  have hclean4 : ExpiryClean now cust.id
      ⟨s.customers,
       (s.credits.map (fixExpired now cust.id)).enum.map (fun p =>
         (alookup p.1 (fifoConsume (List.insertionSort earnedOrder
           (activePairs now cust.id (s.credits.map (fixExpired now cust.id)))) a).1).getD
         p.2),
       s.invoices.set ix { inv with currentAmount := inv.currentAmount - a, creditsApplied := inv.creditsApplied + a },
       s.creditMemos⟩ := by
    intro c hc
    exact writeback_preserves_clean now cust.id (s.credits.map (fixExpired now cust.id)) a
      (map_fix_clean s cust now) c hc
  refine Prod.ext ?_ ?_
  · rw [calc_total]
    rfl
  · exact calc_noop hclean4

/-! Conservation bookkeeping. -/

theorem filter_eq_of_forall₂ (q : CreditGrant → Bool) :
    ∀ {l l2 : List CreditGrant},
      List.Forall₂ (fun c c2 => c2 = c ∨ (q c = false ∧ q c2 = false)) l l2 →
      l.filter q = l2.filter q := by
  intro l l2 h
  induction h with
  | nil => rfl
  | cons hab hrest ih =>
    rename_i c c2 l1 l2'
    rcases hab with heq | ⟨h1, h2⟩
    · rw [heq]
      by_cases hq : q c
      · simp [List.filter_cons, hq, ih]
      · simp [List.filter_cons, hq, ih]
    · simp [List.filter_cons, h1, h2, ih]

theorem writeback_noncust_filter (now : Date) (cid : String) (bl : List CreditGrant) (a : ℚ) :
    bl.filter (fun c => !(c.customerId == cid))
      = ((bl.enum.map (fun p =>
          (alookup p.1
            (fifoConsume (List.insertionSort earnedOrder (activePairs now cid bl)) a).1).getD
          p.2)).filter (fun c => !(c.customerId == cid))) := by
  apply filter_eq_of_forall₂
  apply List.Forall₂.imp ?_ (writeback_forall₂ now cid bl a)
  intro c c2 h
  rcases h with heq | ⟨u, _, _, _, hcid, heq⟩
  · exact Or.inl heq
  · right
    constructor
    · simp [hcid]
    · rw [heq]
      simp [consumeGrant_customerId, hcid]

theorem cust_sum_split (l : List CreditGrant) (cid : String) :
    ((l.filter (fun c => c.customerId == cid)).map (fun c => c.amount)).sum
      = (l.map (fun c => c.amount)).sum
        - ((l.filter (fun c => !(c.customerId == cid))).map (fun c => c.amount)).sum := by
  have h := sum_map_filter_split (fun c => c.customerId == cid) (fun c => c.amount) l
  linarith

theorem fix_cust_sum (s : ServiceState) (cust : Customer) (now : Date) :
    (((s.credits.map (fixExpired now cust.id)).filter
        (fun c => c.customerId == cust.id)).map (fun c => c.amount))
      = ((s.credits.filter (fun c => c.customerId == cust.id)).map (fun c => c.amount)) :=
  filter_map_fix_congr (fixExpired now cust.id) (fun c => c.customerId == cust.id)
    (fun c => c.amount)
    (fun c => by simp only [fixExpired_customerId])
    (fun c _ => fixExpired_amount now cust.id c)
    s.credits

theorem active_pairs_fix_sum (s : ServiceState) (cust : Customer) (now : Date) :
    (((activePairs now cust.id (s.credits.map (fixExpired now cust.id))).map
        (fun p => p.2.amount)).sum)
      = ((get_customer_active_credits s cust.id now).map (fun c => c.amount)).sum := by
  have h1 : activePairs now cust.id (s.credits.map (fixExpired now cust.id))
      = activePairs now cust.id s.credits :=
    enumFrom_filter_active_fix now cust.id 0 s.credits
  rw [h1]
  have h2 := enumFrom_filter_map (fun c => isActiveCredit now cust.id c)
    (fun c => c.amount) 0 s.credits
  show ((s.credits.enum.filter (fun p => isActiveCredit now cust.id p.2)).map
    (fun p => p.2.amount)).sum = _
  rw [show (s.credits.enum.filter (fun p => isActiveCredit now cust.id p.2)).map
      (fun p => p.2.amount)
    = (s.credits.filter (fun c => isActiveCredit now cust.id c)).map (fun c => c.amount)
    from h2]
  rfl

theorem writeback_cust_sum (now : Date) (cid : String) (bl : List CreditGrant) (a : ℚ)
    (ha0 : 0 ≤ a)
    (ha : a ≤ (((activePairs now cid bl).map (fun p => p.2.amount)).sum)) :
    ((bl.filter (fun c => c.customerId == cid)).map (fun c => c.amount)).sum
      = ((((bl.enum.map (fun p =>
            (alookup p.1
              (fifoConsume (List.insertionSort earnedOrder (activePairs now cid bl)) a).1).getD
            p.2)).filter (fun c => c.customerId == cid)).map (fun c => c.amount)).sum) + a := by
  have hpos : ∀ p ∈ List.insertionSort earnedOrder (activePairs now cid bl), 0 ≤ p.2.amount :=
    fun p hp => le_of_lt (sorted_active_facts now cid bl p hp).1
  have hsum_sorted :
      ((List.insertionSort earnedOrder (activePairs now cid bl)).map (fun p => p.2.amount)).sum
        = ((activePairs now cid bl).map (fun p => p.2.amount)).sum :=
    List.Perm.sum_eq ((List.perm_insertionSort _ _).map _)
  have hrem : (fifoConsume (List.insertionSort earnedOrder (activePairs now cid bl)) a).2.2 = 0 :=
    fifoConsume_rem_zero a _ ha0 hpos (by rw [hsum_sorted]; exact ha)
  have hws := writeback_sum now cid bl a
  rw [hrem] at hws
  have hmm : ((bl.enum.map (fun p =>
        (alookup p.1
          (fifoConsume (List.insertionSort earnedOrder (activePairs now cid bl)) a).1).getD
        p.2)).map (fun c => c.amount))
      = (bl.enum.map (fun p =>
          ((alookup p.1
            (fifoConsume (List.insertionSort earnedOrder (activePairs now cid bl)) a).1).getD
          p.2).amount)) := by
    rw [List.map_map]
    rfl
  have h1 := cust_sum_split bl cid
  have h2 := cust_sum_split (bl.enum.map (fun p =>
    (alookup p.1
      (fifoConsume (List.insertionSort earnedOrder (activePairs now cid bl)) a).1).getD
    p.2)) cid
  rw [hmm, hws, ← writeback_noncust_filter now cid bl a] at h2
  linarith

theorem forall₂_trans_credit {R1 R2 R3 : CreditGrant → CreditGrant → Prop}
    (h : ∀ a b c, R1 a b → R2 b c → R3 a c) :
    ∀ {l1 l2 l3 : List CreditGrant}, List.Forall₂ R1 l1 l2 → List.Forall₂ R2 l2 l3 →
      List.Forall₂ R3 l1 l3 := by
  intro l1 l2 l3 h12
  induction h12 generalizing l3 with
  | nil =>
    intro h23
    cases h23
    exact .nil
  | cons hab _ ih =>
    intro h23
    cases h23 with
    | cons hbc hrest2 => exact .cons (h _ _ _ hab hbc) (ih hrest2)

theorem fix_forall₂ (now : Date) (cid : String) (l : List CreditGrant) :
    List.Forall₂ (fun c c1 => c1 = c ∨
        (c.status ≠ "used" ∧ 0 < c.amount ∧ c.expiryDate.key ≤ now.key ∧ c1 = expireGrant c))
      l (l.map (fixExpired now cid)) := by
  rw [List.forall₂_map_right_iff, List.forall₂_same]
  intro c _
  unfold fixExpired
  split
  · rename_i hcond
    right
    obtain ⟨hst, hamt⟩ := classify_expired_status hcond.2
    exact ⟨hst, hamt, classify_expired_expiry hcond.2, rfl⟩
  · exact Or.inl rfl

theorem activePairs_snd (now : Date) (cid : String) (l : List CreditGrant) :
    (activePairs now cid l).map Prod.snd = l.filter (fun c => isActiveCredit now cid c) := by
  have h := enumFrom_filter_map (fun c => isActiveCredit now cid c) (fun c => c) 0 l
  simpa using h

theorem expiredP_eq (now : Date) (cid : String) (c : CreditGrant) :
    (classify now c == Bucket.expired && c.customerId == cid)
      = (c.customerId == cid && (!(c.status == "used") && decide (0 < c.amount)) &&
          decide (c.expiryDate.key ≤ now.key)) := by
  rw [Bool.eq_iff_iff]
  simp only [Bool.and_eq_true, beq_iff_eq, decide_eq_true_eq, Bool.not_eq_true',
    beq_eq_false_iff_ne]
  constructor
  · rintro ⟨hcl, hcid⟩
    obtain ⟨⟨hst, hamt⟩, hexp⟩ := classify_expired_iff.1 hcl
    exact ⟨⟨hcid, hst, hamt⟩, hexp⟩
  · rintro ⟨⟨hcid, hst, hamt⟩, hexp⟩
    exact ⟨classify_expired_iff.2 ⟨⟨hst, hamt⟩, hexp⟩, hcid⟩

/-! Claim theorems. -/

/-- C1 (amended): for a successful apply_credits call whose requested amount
is non-negative and does not exceed the exact, unrounded sum of the
customer's active credit amounts, the sum of the customer's credit amounts
before the call equals the sum after the call plus the amount applied; the
invoice balance decreases by exactly the requested amount while its
creditsApplied grows by the same amount, and the new balance is not
negative.  (As stated, the claim fails: validation compares the request
against the cent-rounded total, so sub-cent states can pass validation while
the FIFO loop runs out of credits; see the counterexample.) -/
theorem C1_conservation_amended (s : ServiceState) (now : Date)
    (customer_id customer_name : String) (a : ℚ) (invoice_id : String)
    (cust : Customer) (ix : Nat) (inv : Invoice)
    (hcust : find_customer s customer_id customer_name = some cust)
    (hinv : find_invoice s invoice_id (some cust.id) = some (ix, inv))
    (hsucc : (validate_credit_application s now customer_id customer_name a invoice_id).1.success
      = true)
    (ha0 : 0 ≤ a)
    (ha : a ≤ ((get_customer_active_credits s cust.id now).map (fun c => c.amount)).sum) :
    (∃ tx recs, (apply_credits s now customer_id customer_name a invoice_id).1
        = ApplyOutcome.applied tx recs) ∧
    ((s.credits.filter (fun c => c.customerId == cust.id)).map (fun c => c.amount)).sum
      = (((apply_credits s now customer_id customer_name a invoice_id).2.credits.filter
          (fun c => c.customerId == cust.id)).map (fun c => c.amount)).sum + a ∧
    (apply_credits s now customer_id customer_name a invoice_id).2.invoices
      = s.invoices.set ix
          { inv with currentAmount := inv.currentAmount - a, creditsApplied := inv.creditsApplied + a } ∧
    0 ≤ inv.currentAmount - a := by
  have H := apply_credits_success s now customer_id customer_name a invoice_id cust ix inv
    hcust hinv hsucc
  refine ⟨⟨_, _, by rw [H]⟩, ?_, by rw [H], sub_nonneg.2
    (validate_succ_conditions s now customer_id customer_name a invoice_id hcust hinv hsucc).2⟩
  rw [H]
  have hw := writeback_cust_sum now cust.id (s.credits.map (fixExpired now cust.id)) a ha0
    (by rw [active_pairs_fix_sum s cust now]; exact ha)
  have hfs : (((s.credits.map (fixExpired now cust.id)).filter
      (fun c => c.customerId == cust.id)).map (fun c => c.amount)).sum
      = ((s.credits.filter (fun c => c.customerId == cust.id)).map (fun c => c.amount)).sum :=
    congrArg List.sum (fix_cust_sum s cust now)
  rw [← hfs]
  exact hw

/-- C1 (counterexample to the claim as stated): with two active grants of
0.004 each, the quantized available total is 0.01, so a request of 0.01
passes validation and succeeds, but the grants only held 0.008 in total:
the conservation equation fails on this successful call. -/
theorem C1_conservation_counterexample :
    (∃ tx recs, (apply_credits subCentState demoNow "CUSTX" "" (1/100) "INVX").1
        = ApplyOutcome.applied tx recs) ∧
    ¬(((subCentState.credits.filter (fun c => c.customerId == "CUSTX")).map
          (fun c => c.amount)).sum
        = (((apply_credits subCentState demoNow "CUSTX" "" (1/100) "INVX").2.credits.filter
            (fun c => c.customerId == "CUSTX")).map (fun c => c.amount)).sum + 1/100) := by
  constructor
  · exact ⟨_, _, rfl⟩
  · decide

/-- C1 (witness): the amended theorem applies to the demo state: applying
400 for CUST1 against INV1 succeeds and conserves the credit mass. -/
theorem C1_conservation_witness :
    ((validate_credit_application demoState demoNow "CUST1" "" 400 "INV1").1.success = true) ∧
    ((demoState.credits.filter (fun c => c.customerId == "CUST1")).map
        (fun c => c.amount)).sum
      = (((apply_credits demoState demoNow "CUST1" "" 400 "INV1").2.credits.filter
          (fun c => c.customerId == "CUST1")).map (fun c => c.amount)).sum + 400 :=
  ⟨by decide,
   (C1_conservation_amended demoState demoNow "CUST1" "" 400 "INV1" cust1 0 inv1
     (by decide) (by decide) (by decide) (by norm_num) (by decide)).2.1⟩

/-- C3 (amended): a successful apply_credits call walks the customer's
active credits in ascending earnedDate order — the walked list is sorted by
earnedDate and is a permutation of the customer's active credits — and its
usage records are exactly the greedy walk of the specification (consume the
minimum of the outstanding request and the grant amount, stop at zero); on
the state, every grant is either untouched, reclassified by lazy expiry, or
decremented by its consumed portion with its status set to used exactly when
the new amount is zero and left unchanged otherwise.  (As stated, the claim
fails: the code never sets partially_used — a partially consumed grant keeps
its stored status; see the counterexample.) -/
theorem C3_fifo_amended (s : ServiceState) (now : Date)
    (customer_id customer_name : String) (a : ℚ) (invoice_id : String)
    (cust : Customer) (ix : Nat) (inv : Invoice)
    (hcust : find_customer s customer_id customer_name = some cust)
    (hinv : find_invoice s invoice_id (some cust.id) = some (ix, inv))
    (hsucc : (validate_credit_application s now customer_id customer_name a invoice_id).1.success
      = true) :
    (∃ tx, (apply_credits s now customer_id customer_name a invoice_id).1
        = ApplyOutcome.applied tx
          ((fifoConsume (List.insertionSort earnedOrder
            (activePairs now cust.id (s.credits.map (fixExpired now cust.id)))) a).2.1)) ∧
    (((fifoConsume (List.insertionSort earnedOrder
          (activePairs now cust.id (s.credits.map (fixExpired now cust.id)))) a).2.1).map
        (fun r => (r.credit_id, r.amount_used))
      = (specFifoWalk ((List.insertionSort earnedOrder
          (activePairs now cust.id (s.credits.map (fixExpired now cust.id)))).map Prod.snd)
          a).1) ∧
    List.Pairwise (fun c1 c2 => c1.earnedDate.key ≤ c2.earnedDate.key)
      ((List.insertionSort earnedOrder
        (activePairs now cust.id (s.credits.map (fixExpired now cust.id)))).map Prod.snd) ∧
    List.Perm
      ((List.insertionSort earnedOrder
        (activePairs now cust.id (s.credits.map (fixExpired now cust.id)))).map Prod.snd)
      (get_customer_active_credits s cust.id now) ∧
    List.Forall₂ (fun c c2 => c2 = c ∨
        (c.status ≠ "used" ∧ 0 < c.amount ∧ c.expiryDate.key ≤ now.key ∧ c2 = expireGrant c) ∨
        (∃ u, 0 < u ∧ u ≤ c.amount ∧ c2 = consumeGrant c u))
      s.credits (apply_credits s now customer_id customer_name a invoice_id).2.credits := by
  have H := apply_credits_success s now customer_id customer_name a invoice_id cust ix inv
    hcust hinv hsucc
  refine ⟨⟨_, by rw [H]⟩, fifoConsume_records a _, ?_, ?_, ?_⟩
  · have hs := List.sorted_insertionSort earnedOrder
      (activePairs now cust.id (s.credits.map (fixExpired now cust.id)))
    exact List.Pairwise.map Prod.snd (fun p q h => h) hs
  · rw [show activePairs now cust.id (s.credits.map (fixExpired now cust.id))
        = activePairs now cust.id s.credits
        from enumFrom_filter_active_fix now cust.id 0 s.credits,
      show get_customer_active_credits s cust.id now
        = s.credits.filter (fun c => isActiveCredit now cust.id c) from rfl,
      ← activePairs_snd now cust.id s.credits]
    exact (List.perm_insertionSort _ _).map Prod.snd
  · rw [H]
    refine forall₂_trans_credit ?_ (fix_forall₂ now cust.id s.credits)
      (writeback_forall₂ now cust.id (s.credits.map (fixExpired now cust.id)) a)
    intro c c1 c2 h1 h2
    rcases h1 with heq1 | ⟨hst, hamt, hexp, heq1⟩
    · rcases h2 with heq2 | ⟨u, hu1, hu2, _, _, heq2⟩
      · exact Or.inl (by rw [heq2, heq1])
      · exact Or.inr (Or.inr ⟨u, hu1, by rw [← heq1]; exact hu2, by rw [heq2, heq1]⟩)
    · rcases h2 with heq2 | ⟨u, _, _, hfut, _, heq2⟩
      · exact Or.inr (Or.inl ⟨hst, hamt, hexp, by rw [heq2, heq1]⟩)
      · exfalso
        rw [heq1] at hfut
        exact absurd hexp (not_le.2 hfut)

/-- C3 (counterexample to the claim as stated): applying 400 consumes 100 of
the 200-amount grant CR2; its new amount is 100, yet its status stays
active — the code never sets partially_used. -/
theorem C3_fifo_counterexample :
    (∃ tx recs, (apply_credits demoState demoNow "CUST1" "" 400 "INV1").1
        = ApplyOutcome.applied tx recs) ∧
    ((apply_credits demoState demoNow "CUST1" "" 400 "INV1").2.credits.get? 0
      = some { cr2 with amount := 100, status := "active" }) ∧
    "active" ≠ "partially_used" := by
  refine ⟨⟨_, _, rfl⟩, by decide, by decide⟩

/-- C3 (witness): the amended theorem applied to the 400 request on the demo
state. -/
theorem C3_fifo_witness :
    ((validate_credit_application demoState demoNow "CUST1" "" 400 "INV1").1.success = true) ∧
    List.Forall₂ (fun c c2 => c2 = c ∨
        (c.status ≠ "used" ∧ 0 < c.amount ∧ c.expiryDate.key ≤ demoNow.key ∧ c2 = expireGrant c) ∨
        (∃ u, 0 < u ∧ u ≤ c.amount ∧ c2 = consumeGrant c u))
      demoState.credits (apply_credits demoState demoNow "CUST1" "" 400 "INV1").2.credits :=
  ⟨by decide,
   (C3_fifo_amended demoState demoNow "CUST1" "" 400 "INV1" cust1 0 inv1
     (by decide) (by decide) (by decide)).2.2.2.2⟩

/-- C4 (amended): at every read, the grants reported (and reclassified)
expired are exactly those of the customer whose stored status is not used,
whose amount is positive, and whose expiry date is not in the future; they
are reported with status expired, expired grants are excluded from the
active bucket, the state change is exactly this status overwrite, and the
read is idempotent: repeating it returns the identical report and state.
(As stated — expired iff the expiry date has passed, regardless of stored
status — the claim fails: a grant already marked used, or with non-positive
amount, is bucketed as used even when its expiry date has passed; see the
counterexample.) -/
theorem C4_lazy_expiry_amended (s : ServiceState) (cust : Customer) (now : Date) :
    (calculate_available_credits s cust now).1.expired_credits
      = ((s.credits.filter (fun c => c.customerId == cust.id &&
          (!(c.status == "used") && decide (0 < c.amount)) &&
          decide (c.expiryDate.key ≤ now.key))).map expireGrant) ∧
    (∀ c ∈ (calculate_available_credits s cust now).1.expired_credits, c.status = "expired") ∧
    (∀ p ∈ (calculate_available_credits s cust now).1.active_credits,
      now.key < p.2.expiryDate.key) ∧
    (calculate_available_credits s cust now).2.credits = s.credits.map (fixExpired now cust.id) ∧
    calculate_available_credits (calculate_available_credits s cust now).2 cust now
      = calculate_available_credits s cust now := by
  refine ⟨?_, ?_, ?_, by rw [calc_snd], calc_idem s cust now⟩
  · rw [calc_expired]
    congr 1
    exact List.filter_congr (fun c _ => expiredP_eq now cust.id c)
  · intro c hc
    rw [calc_expired] at hc
    obtain ⟨c0, _, rfl⟩ := List.mem_map.1 hc
    rfl
  · intro p hp
    rw [calc_active] at hp
    exact (isActive_facts (List.mem_filter.1 hp).2).2.1

/-- C4 (counterexample to the claim as stated): grant CR4 has a past expiry
date but stored status used, so the read buckets it as used, not expired,
and leaves its status untouched — classification is not independent of the
stored status. -/
theorem C4_lazy_expiry_counterexample :
    cr4.expiryDate.key ≤ demoNow.key ∧
    ((calculate_available_credits demoState cust1 demoNow).1.expired_credits.map
      (fun c => c.id)) = ["CR3"] ∧
    cr4 ∈ (calculate_available_credits demoState cust1 demoNow).1.used_credits ∧
    cr4.status ≠ "expired" := by decide

/-- C4 (witness): the amended characterization and the idempotence instance
on the demo state. -/
theorem C4_lazy_expiry_witness :
    (calculate_available_credits demoState cust1 demoNow).1.expired_credits
      = ((demoState.credits.filter (fun c => c.customerId == cust1.id &&
          (!(c.status == "used") && decide (0 < c.amount)) &&
          decide (c.expiryDate.key ≤ demoNow.key))).map expireGrant) ∧
    calculate_available_credits (calculate_available_credits demoState cust1 demoNow).2 cust1
        demoNow
      = calculate_available_credits demoState cust1 demoNow :=
  ⟨(C4_lazy_expiry_amended demoState cust1 demoNow).1,
   (C4_lazy_expiry_amended demoState cust1 demoNow).2.2.2.2⟩

/-- C5 (confirmed): the partial-payment preview never changes the stored
state — every branch returns the state it was given — and when the remaining
balance is not positive it reports the invoice fully paid, zero credits
applied, an empty applied-credits list, and the customer's unchanged current
available-credit balance. -/
theorem C5_preview_non_mutating (s : ServiceState) (now : Date)
    (customer_id customer_name invoice_id : String) (paid : ℚ)
    (invoice_amount : Option ℚ) :
    (processPartPayment s now customer_id customer_name invoice_id paid invoice_amount).2 = s ∧
    (∀ cust inv,
      find_customer s customer_id customer_name = some cust →
      s.invoices.find? (fun i => strUpper i.id == strUpper invoice_id) = some inv →
      inv.customerId = cust.id →
      (match invoice_amount with
        | some x => if x ≠ 0 then x else inv.currentAmount
        | none => inv.currentAmount) - paid ≤ 0 →
      (processPartPayment s now customer_id customer_name invoice_id paid invoice_amount).1
        = { success := true, error := none, invoice_fully_paid := true,
            paid_amount := paid, credits_applied := 0, applied_credits := [],
            remaining_balance := 0,
            remaining_credits := calculate_total_active_credits s cust.id now }) := by
  constructor
  · cases hc : find_customer s customer_id customer_name with
    | none => simp only [processPartPayment, hc]
    | some cust =>
      cases hi : s.invoices.find? (fun i => strUpper i.id == strUpper invoice_id) with
      | none => simp only [processPartPayment, hc, hi]
      | some inv =>
        simp only [processPartPayment, hc, hi]
        split_ifs <;> rfl
  · intro cust inv hc hi hown hrem
    simp only [processPartPayment, hc, hi, hown, ne_eq, not_true_eq_false, if_false]
    rw [if_pos hrem]

/-- C5 (witness): a 1200 payment against the 1000 invoice INV1 is reported
fully paid with no credits applied, and the state is untouched. -/
theorem C5_preview_witness :
    (processPartPayment demoState demoNow "CUST1" "" "INV1" 1200 none).2 = demoState ∧
    (processPartPayment demoState demoNow "CUST1" "" "INV1" 1200 none).1
      = { success := true, error := none, invoice_fully_paid := true,
          paid_amount := 1200, credits_applied := 0, applied_credits := [],
          remaining_balance := 0,
          remaining_credits := calculate_total_active_credits demoState "CUST1" demoNow } :=
  ⟨(C5_preview_non_mutating demoState demoNow "CUST1" "" "INV1" 1200 none).1,
   (C5_preview_non_mutating demoState demoNow "CUST1" "" "INV1" 1200 none).2 cust1 inv1
     (by decide) (by decide) (by decide) (by decide)⟩

/-- C6 (amended): when the delegated allocation of approve fails because the
target invoice does not exist, the call returns success false and sets no
appliedDate, but the memo does not remain draft: it has already been stamped
approved, with the customer choice, the approval date and the target invoice
id recorded; no other record changes.  (As stated — the memo remains draft
and unapproved with no customerChoice or approvedDate — the claim fails; see
the counterexample.) -/
theorem C6_memo_abort_amended (s : ServiceState) (now : Date)
    (credit_memo_id target_invoice_id : String) (mi : Nat) (memo : CreditMemo)
    (hm : s.creditMemos.enum.find? (fun p => p.2.id == credit_memo_id) = some (mi, memo))
    (htgt : target_invoice_id ≠ "")
    (hinv : find_invoice s target_invoice_id none = none) :
    approve_credit_memo s now credit_memo_id "apply_to_invoice" target_invoice_id
      = ({ success := false, error := some "Target invoice not found", credit_memo := none },
         { s with creditMemos := s.creditMemos.set mi { memo with status := "approved", approvedDate := some now, customerChoice := some "apply_to_invoice", targetInvoiceId := some target_invoice_id } }) := by
  simp only [approve_credit_memo, hm]
  rw [if_pos (⟨trivial, htgt⟩ : True ∧ target_invoice_id ≠ "")]
  have happly : apply_credit_to_invoice
      ({ s with creditMemos := s.creditMemos.set mi { memo with status := "approved", approvedDate := some now, customerChoice := some "apply_to_invoice", targetInvoiceId := some target_invoice_id } } : ServiceState)
      memo.amount target_invoice_id
      = ({ success := false, error := some "Target invoice not found" },
         { s with creditMemos := s.creditMemos.set mi { memo with status := "approved", approvedDate := some now, customerChoice := some "apply_to_invoice", targetInvoiceId := some target_invoice_id } }) := by
    have hcongr := find_invoice_congr
      (show ({ s with creditMemos := s.creditMemos.set mi { memo with status := "approved", approvedDate := some now, customerChoice := some "apply_to_invoice", targetInvoiceId := some target_invoice_id } } : ServiceState).invoices
        = s.invoices from rfl) target_invoice_id none
    simp only [apply_credit_to_invoice, hcongr, hinv]
  simp only [happly, Bool.false_eq_true, if_false, List.set_set]

/-- C6 (counterexample to the claim as stated): approving CM1 against the
nonexistent invoice INV404 fails, yet the stored memo is now approved with
the choice and approval date recorded — it did not remain draft. -/
theorem C6_memo_abort_counterexample :
    ((approve_credit_memo demoState demoNow "CM1" "apply_to_invoice" "INV404").1.success
      = false) ∧
    ((approve_credit_memo demoState demoNow "CM1" "apply_to_invoice" "INV404").2.creditMemos.get?
        0
      = some { cm1 with status := "approved", approvedDate := some demoNow, customerChoice := some "apply_to_invoice", targetInvoiceId := some "INV404" }) ∧
    "approved" ≠ "draft" := by decide

/-- C6 (witness): the amended theorem applied to the INV404 scenario. -/
theorem C6_memo_abort_witness :
    (demoState.creditMemos.enum.find? (fun p => p.2.id == "CM1") = some (0, cm1)) ∧
    approve_credit_memo demoState demoNow "CM1" "apply_to_invoice" "INV404"
      = ({ success := false, error := some "Target invoice not found", credit_memo := none },
         { demoState with creditMemos := demoState.creditMemos.set 0 { cm1 with status := "approved", approvedDate := some demoNow, customerChoice := some "apply_to_invoice", targetInvoiceId := some "INV404" } }) :=
  ⟨by decide,
   C6_memo_abort_amended demoState demoNow "CM1" "INV404" 0 cm1
     (by decide) (by decide) (by decide)⟩

/-- C7 (amended): when an explicit invoice id matches an invoice in the
table, apply_credits validation uses exactly that invoice and succeeds if
and only if the customer resolves and the two amount checks pass — no
ownership check and no pending-status check is performed on an explicitly
named invoice, so allocation against a different customer's invoice can
succeed.  (As stated — such a call fails with InvoiceOwnershipMismatch and
is never a successful allocation — the claim fails; see the
counterexample.) -/
theorem C7_ownership_amended (s : ServiceState) (now : Date)
    (customer_id customer_name : String) (a : ℚ) (invoice_id : String)
    (cust : Customer) (ix : Nat) (inv : Invoice)
    (hcust : find_customer s customer_id customer_name = some cust)
    (hid : invoice_id ≠ "")
    (hfound : s.invoices.enum.find? (fun p => strUpper p.2.id == strUpper invoice_id)
      = some (ix, inv)) :
    find_invoice s invoice_id (some cust.id) = some (ix, inv) ∧
    (validate_credit_application s now customer_id customer_name a invoice_id).1.invoice_info
      = some ⟨inv.id, inv.originalAmount, inv.currentAmount, inv.creditsApplied, inv.status⟩ ∧
    ((validate_credit_application s now customer_id customer_name a invoice_id).1.success = true
      ↔ ¬(a > (calculate_available_credits s cust now).1.total_available) ∧
        ¬(a > inv.currentAmount)) := by
  have hfi : find_invoice s invoice_id (some cust.id) = some (ix, inv) := by
    simp only [find_invoice]
    rw [if_pos hid, hfound]
  refine ⟨hfi, ?_, ?_⟩
  · simp only [validate_credit_application, hcust, hfi]
    split_ifs <;> rfl
  · simp only [validate_credit_application, hcust, hfi]
    split_ifs with h1 h2 h3
    · simp [h1]
    · simp [h1, h2]
    · simp [h1, h2]
    · simp [h1, h2]

/-- C7 (counterexample to the claim as stated): customer CUST1 successfully
allocates 300 against INV2, which belongs to CUST2 — the ownership mismatch
is not detected and the foreign invoice is mutated. -/
theorem C7_ownership_counterexample :
    (∃ tx recs, (apply_credits demoState demoNow "CUST1" "" 300 "INV2").1
        = ApplyOutcome.applied tx recs) ∧
    inv2.customerId = "CUST2" ∧
    ((find_customer demoState "CUST1" "").map (fun c => c.id) = some "CUST1") ∧
    ((apply_credits demoState demoNow "CUST1" "" 300 "INV2").2.invoices.get? 1
      = some { inv2 with currentAmount := 100, creditsApplied := 300 }) := by
  refine ⟨⟨_, _, rfl⟩, by decide, by decide, by decide⟩

/-- C7 (witness): the amended theorem applied to the INV2 scenario. -/
theorem C7_ownership_witness :
    (demoState.invoices.enum.find? (fun p => strUpper p.2.id == strUpper "INV2")
      = some (1, inv2)) ∧
    ((validate_credit_application demoState demoNow "CUST1" "" 300 "INV2").1.success = true
      ↔ ¬((300 : ℚ) > (calculate_available_credits demoState cust1 demoNow).1.total_available) ∧
        ¬((300 : ℚ) > inv2.currentAmount)) :=
  ⟨by decide,
   (C7_ownership_amended demoState demoNow "CUST1" "" 300 "INV2" cust1 1 inv2
     (by decide) (by decide) (by decide)).2.2⟩

/-- C8 (amended): approving a memo with apply_to_account creates a credit
dict with amount = memo.amount, earnedDate = now, expiryDate = now plus two
years, status active, description = memo.reason and source CREDIT_MEMO, but
appends it to the customer record's embedded credits list — not to the
credits table the ledger queries read — so the credits table is unchanged
and the customer's total active balance is unchanged for every customer; the
created dict also carries no originalAmount and no category key.  (As
stated — a CreditGrant with category discrepancy_credit visible to
activeCredits / totalActiveBalance — the claim fails; see the
counterexample.) -/
theorem C8_account_credit_amended (s : ServiceState) (now : Date)
    (credit_memo_id target_invoice_id : String) (mi : Nat) (memo : CreditMemo)
    (ci : Nat) (cust : Customer)
    (hm : s.creditMemos.enum.find? (fun p => p.2.id == credit_memo_id) = some (mi, memo))
    (hc : s.customers.enum.find? (fun p => p.2.id == memo.customerId) = some (ci, cust)) :
    approve_credit_memo s now credit_memo_id "apply_to_account" target_invoice_id
      = ({ success := true, error := none,
           credit_memo := some { memo with status := "approved", approvedDate := some now, customerChoice := some "apply_to_account", appliedDate := some now } },
         { s with
            customers := s.customers.set ci { cust with credits := cust.credits ++ [⟨"CR" ++ pad3 (cust.credits.length + 1), memo.amount, now, dateAddTwoYears now, "active", "CREDIT_MEMO", memo.reason⟩] },
            creditMemos := s.creditMemos.set mi { memo with status := "approved", approvedDate := some now, customerChoice := some "apply_to_account", appliedDate := some now } }) ∧
    (approve_credit_memo s now credit_memo_id "apply_to_account" target_invoice_id).2.credits
      = s.credits ∧
    (∀ cid, calculate_total_active_credits
        (approve_credit_memo s now credit_memo_id "apply_to_account" target_invoice_id).2 cid
        now
      = calculate_total_active_credits s cid now) := by
  have heq : approve_credit_memo s now credit_memo_id "apply_to_account" target_invoice_id
      = ({ success := true, error := none,
           credit_memo := some { memo with status := "approved", approvedDate := some now, customerChoice := some "apply_to_account", appliedDate := some now } },
         { s with
            customers := s.customers.set ci { cust with credits := cust.credits ++ [⟨"CR" ++ pad3 (cust.credits.length + 1), memo.amount, now, dateAddTwoYears now, "active", "CREDIT_MEMO", memo.reason⟩] },
            creditMemos := s.creditMemos.set mi { memo with status := "approved", approvedDate := some now, customerChoice := some "apply_to_account", appliedDate := some now } }) := by
    simp only [approve_credit_memo, hm]
    rw [if_neg (show ¬("apply_to_account" = "apply_to_invoice" ∧ target_invoice_id ≠ "")
      from fun h => absurd h.1 (by decide))]
    simp only [if_true]
    simp only [add_credit_to_account, hc, finalizeMemo, List.set_set]
    simp only [if_true]
  refine ⟨heq, by rw [heq], fun cid => by rw [heq]; rfl⟩

/-- C8 (counterexample to the claim as stated): approving CM1 (amount 50)
with apply_to_account succeeds, but the credits table is unchanged and the
customer's total active balance stays at 500 — the created credit is not
visible to the ledger queries. -/
theorem C8_account_credit_counterexample :
    ((approve_credit_memo demoState demoNow "CM1" "apply_to_account" "").1.success = true) ∧
    cm1.amount = 50 ∧
    ((approve_credit_memo demoState demoNow "CM1" "apply_to_account" "").2.credits
      = demoState.credits) ∧
    calculate_total_active_credits
        (approve_credit_memo demoState demoNow "CM1" "apply_to_account" "").2 "CUST1" demoNow
      = calculate_total_active_credits demoState "CUST1" demoNow ∧
    calculate_total_active_credits demoState "CUST1" demoNow = 500 := by decide

/-- C8 (witness): the amended theorem applied to the CM1 scenario. -/
theorem C8_account_credit_witness :
    (demoState.creditMemos.enum.find? (fun p => p.2.id == "CM1") = some (0, cm1)) ∧
    calculate_total_active_credits
        (approve_credit_memo demoState demoNow "CM1" "apply_to_account" "").2 "CUST1" demoNow
      = calculate_total_active_credits demoState "CUST1" demoNow :=
  ⟨by decide,
   (C8_account_credit_amended demoState demoNow "CM1" "" 0 cm1 0 cust1
     (by decide) (by decide)).2.2 "CUST1"⟩

/-- C10 (confirmed): approving a memo with apply_to_invoice against an
existing target invoice succeeds, sets the invoice balance to the zero-clamped
difference while creditsApplied grows by the full memo amount regardless of
the clamp, and touches no credit grant: the credits table and the customer
records (with their embedded credit lists) are unchanged, and no balance
check constrains the call. -/
theorem C10_clamped_invoice_credit (s : ServiceState) (now : Date)
    (credit_memo_id target_invoice_id : String) (mi : Nat) (memo : CreditMemo)
    (ix : Nat) (inv : Invoice)
    (hm : s.creditMemos.enum.find? (fun p => p.2.id == credit_memo_id) = some (mi, memo))
    (htgt : target_invoice_id ≠ "")
    (hinv : find_invoice s target_invoice_id none = some (ix, inv)) :
    ((approve_credit_memo s now credit_memo_id "apply_to_invoice" target_invoice_id).1.success
      = true) ∧
    (approve_credit_memo s now credit_memo_id "apply_to_invoice" target_invoice_id).2.invoices
      = s.invoices.set ix { inv with creditsApplied := inv.creditsApplied + memo.amount, currentAmount := max 0 (inv.currentAmount - memo.amount) } ∧
    (approve_credit_memo s now credit_memo_id "apply_to_invoice" target_invoice_id).2.credits
      = s.credits ∧
    (approve_credit_memo s now credit_memo_id "apply_to_invoice" target_invoice_id).2.customers
      = s.customers := by
  have happly : apply_credit_to_invoice
      ({ s with creditMemos := s.creditMemos.set mi { memo with status := "approved", approvedDate := some now, customerChoice := some "apply_to_invoice", targetInvoiceId := some target_invoice_id } } : ServiceState)
      memo.amount target_invoice_id
      = ({ success := true, error := none },
         { s with
            creditMemos := s.creditMemos.set mi { memo with status := "approved", approvedDate := some now, customerChoice := some "apply_to_invoice", targetInvoiceId := some target_invoice_id },
            invoices := s.invoices.set ix { inv with creditsApplied := inv.creditsApplied + memo.amount, currentAmount := max 0 (inv.currentAmount - memo.amount) } }) := by
    have hcongr := find_invoice_congr
      (show ({ s with creditMemos := s.creditMemos.set mi { memo with status := "approved", approvedDate := some now, customerChoice := some "apply_to_invoice", targetInvoiceId := some target_invoice_id } } : ServiceState).invoices
        = s.invoices from rfl) target_invoice_id none
    simp only [apply_credit_to_invoice, hcongr, hinv]
  have heq : approve_credit_memo s now credit_memo_id "apply_to_invoice" target_invoice_id
      = ({ success := true, error := none,
           credit_memo := some { memo with status := "approved", approvedDate := some now, customerChoice := some "apply_to_invoice", targetInvoiceId := some target_invoice_id, appliedDate := some now } },
         { s with
            creditMemos := s.creditMemos.set mi { memo with status := "approved", approvedDate := some now, customerChoice := some "apply_to_invoice", targetInvoiceId := some target_invoice_id, appliedDate := some now },
            invoices := s.invoices.set ix { inv with creditsApplied := inv.creditsApplied + memo.amount, currentAmount := max 0 (inv.currentAmount - memo.amount) } }) := by
    simp only [approve_credit_memo, hm, List.set_set]
    rw [if_pos (⟨trivial, htgt⟩ : True ∧ target_invoice_id ≠ "")]
    simp only [happly, finalizeMemo, List.set_set, if_true]
  exact ⟨by rw [heq], by rw [heq], by rw [heq], by rw [heq]⟩

/-- C10 (witness): approving CM2 (amount 5000) against INV1 (balance 1000)
clamps the balance at zero while creditsApplied grows by the full 5000. -/
theorem C10_clamped_invoice_credit_witness :
    (demoState.creditMemos.enum.find? (fun p => p.2.id == "CM2") = some (1, cm2)) ∧
    (approve_credit_memo demoState demoNow "CM2" "apply_to_invoice" "INV1").2.invoices
      = demoState.invoices.set 0 { inv1 with creditsApplied := inv1.creditsApplied + cm2.amount, currentAmount := max 0 (inv1.currentAmount - cm2.amount) } :=
  ⟨by decide,
   (C10_clamped_invoice_credit demoState demoNow "CM2" "INV1" 1 cm2 0 inv1
     (by decide) (by decide) (by decide)).2.1⟩

/-- C9 (amended): when the customer's active credits already appear in the
credits table in ascending earnedDate order, the partial-payment preview and
apply_credits consume the same per-grant (id, amount) list for the same
customer state and the same amount to cover: apply_credits reports exactly
the FIFO usage records, the preview reports exactly its table-order cover
loop, and the two projected lists coincide.  (As stated — for every credit
state — the claim fails: apply_credits sorts the active credits by
earnedDate while the preview walks them in table order, so an unsorted table
makes the lists differ; see the counterexample.) -/
theorem C9_preview_order_amended (s : ServiceState) (now : Date)
    (customer_id customer_name : String) (a : ℚ) (invoice_id pinvoice_id : String)
    (paid_amount : ℚ) (cust : Customer) (ix : Nat) (inv pinv : Invoice)
    (hcust : find_customer s customer_id customer_name = some cust)
    (hinv : find_invoice s invoice_id (some cust.id) = some (ix, inv))
    (hsucc : (validate_credit_application s now customer_id customer_name a invoice_id).1.success
      = true)
    (hsorted : List.Sorted earnedOrder (activePairs now cust.id s.credits))
    (hpfind : s.invoices.find? (fun i => strUpper i.id == strUpper pinvoice_id) = some pinv)
    (hown : pinv.customerId = cust.id)
    (hrem : pinv.currentAmount - paid_amount = a)
    (ha : 0 < a)
    (htot : 0 < ((get_customer_active_credits s cust.id now).map (fun c => c.amount)).sum) :
    (∃ tx recs, (apply_credits s now customer_id customer_name a invoice_id).1
        = ApplyOutcome.applied tx recs) ∧
    (processPartPayment s now customer_id customer_name pinvoice_id paid_amount none).1.applied_credits
      = (coverLoop (get_customer_active_credits s cust.id now) a).1 ∧
    (outcomeUsage (apply_credits s now customer_id customer_name a invoice_id).1).map
        (fun r => (r.credit_id, r.amount_used))
      = ((processPartPayment s now customer_id customer_name pinvoice_id paid_amount
          none).1.applied_credits).map (fun r => (r.id, r.amount)) := by
  have H := apply_credits_success s now customer_id customer_name a invoice_id cust ix inv
    hcust hinv hsucc
  have hprev : (processPartPayment s now customer_id customer_name pinvoice_id paid_amount
      none).1.applied_credits = (coverLoop (get_customer_active_credits s cust.id now) a).1 := by
    simp only [processPartPayment, hcust, hpfind]
    rw [if_neg (not_not.2 hown)]
    rw [hrem]
    rw [if_neg (not_le.2 ha)]
    rw [if_neg (not_le.2 htot)]
  have hsortId : List.insertionSort earnedOrder
      (activePairs now cust.id (s.credits.map (fixExpired now cust.id)))
      = activePairs now cust.id s.credits := by
    rw [show activePairs now cust.id (s.credits.map (fixExpired now cust.id))
        = activePairs now cust.id s.credits from enumFrom_filter_active_fix now cust.id 0 s.credits]
    exact List.Sorted.insertionSort_eq hsorted
  refine ⟨⟨_, _, by rw [H]⟩, hprev, ?_⟩
  have husage : outcomeUsage (apply_credits s now customer_id customer_name a invoice_id).1
      = (fifoConsume (List.insertionSort earnedOrder
          (activePairs now cust.id (s.credits.map (fixExpired now cust.id)))) a).2.1 := by
    rw [H]
    rfl
  rw [husage, fifoConsume_records, hprev, coverLoop_records, hsortId, activePairs_snd]
  rfl

/-- C9 (counterexample to the claim as stated): on the demo table, whose
newer grant CR2 is stored before the older CR1, covering the same 400 gap
yields FIFO order [(CR1, 300), (CR2, 100)] from apply_credits but table
order [(CR2, 200), (CR1, 200)] from the preview. -/
theorem C9_preview_order_counterexample :
    (∃ tx recs, (apply_credits demoState demoNow "CUST1" "" 400 "INV1").1
        = ApplyOutcome.applied tx recs) ∧
    ((processPartPayment demoState demoNow "CUST1" "" "INV1" 600 none).1.success = true) ∧
    (outcomeUsage (apply_credits demoState demoNow "CUST1" "" 400 "INV1").1).map
        (fun r => (r.credit_id, r.amount_used))
      = [("CR1", 300), ("CR2", 100)] ∧
    ((processPartPayment demoState demoNow "CUST1" "" "INV1" 600 none).1.applied_credits).map
        (fun r => (r.id, r.amount))
      = [("CR2", 200), ("CR1", 200)] := by
  exact ⟨⟨_, _, rfl⟩, by decide, by decide, by decide⟩

/-- C9 (witness): on the earnedDate-sorted demo table the amended theorem
applies, and the apply and preview consumption lists agree on the 400 gap. -/
theorem C9_preview_order_witness :
    List.Sorted earnedOrder (activePairs demoNow "CUST1" demoStateSorted.credits) ∧
    (outcomeUsage (apply_credits demoStateSorted demoNow "CUST1" "" 400 "INV1").1).map
        (fun r => (r.credit_id, r.amount_used))
      = ((processPartPayment demoStateSorted demoNow "CUST1" "" "INV1" 600
          none).1.applied_credits).map (fun r => (r.id, r.amount)) :=
  ⟨by decide,
   (C9_preview_order_amended demoStateSorted demoNow "CUST1" "" 400 "INV1" "INV1" 600
     cust1 0 inv1 inv1 (by decide) (by decide) (by decide) (by decide) (by decide)
     (by decide) (by decide) (by norm_num) (by decide)).2.2⟩

/-- C2 (amended): whenever validation fails, apply_credits returns the
failed validation result and mutates no invoice, customer or credit memo,
and no grant amount; the only possible difference in the credits table is
the lazy-expiry reclassification of grants whose expiry date has passed
(stored status not used, positive amount), whose status becomes expired.
(As stated — every grant byte-for-byte unchanged — the claim fails, because
the validation itself performs the lazy-expiry status write; see the
counterexample.) -/
theorem C2_rejection_amended (s : ServiceState) (now : Date)
    (customer_id customer_name : String) (a : ℚ) (invoice_id : String)
    (hfail : (validate_credit_application s now customer_id customer_name a invoice_id).1.success
      = false) :
    (apply_credits s now customer_id customer_name a invoice_id
      = (ApplyOutcome.failed
          (validate_credit_application s now customer_id customer_name a invoice_id).1,
         (validate_credit_application s now customer_id customer_name a invoice_id).2)) ∧
    (apply_credits s now customer_id customer_name a invoice_id).2.invoices = s.invoices ∧
    (apply_credits s now customer_id customer_name a invoice_id).2.customers = s.customers ∧
    (apply_credits s now customer_id customer_name a invoice_id).2.creditMemos = s.creditMemos ∧
    List.Forall₂ (fun c c2 => c2 = c ∨
        (c.status ≠ "used" ∧ 0 < c.amount ∧ c.expiryDate.key ≤ now.key ∧ c2 = expireGrant c))
      s.credits (apply_credits s now customer_id customer_name a invoice_id).2.credits := by
  have happ : apply_credits s now customer_id customer_name a invoice_id
      = (ApplyOutcome.failed
          (validate_credit_application s now customer_id customer_name a invoice_id).1,
         (validate_credit_application s now customer_id customer_name a invoice_id).2) := by
    simp [apply_credits, hfail]
  refine ⟨happ, ?_⟩
  rw [happ]
  have hcases : (validate_credit_application s now customer_id customer_name a invoice_id).2 = s
      ∨ ∃ cust, (validate_credit_application s now customer_id customer_name a invoice_id).2
          = (calculate_available_credits s cust now).2 := by
    cases hc : find_customer s customer_id customer_name with
    | none => left; simp only [validate_credit_application, hc]
    | some cust =>
      cases hi : find_invoice s invoice_id (some cust.id) with
      | none => left; simp only [validate_credit_application, hc, hi]
      | some p =>
        obtain ⟨ix, inv⟩ := p
        right
        refine ⟨cust, ?_⟩
        simp only [validate_credit_application, hc, hi]
        split_ifs <;> rfl
  rcases hcases with heq | ⟨cust, heq⟩
  · rw [heq]
    exact ⟨rfl, rfl, rfl, List.forall₂_same.2 (fun c _ => Or.inl rfl)⟩
  · rw [heq, calc_snd]
    refine ⟨rfl, rfl, rfl, ?_⟩
    simp only []
    rw [List.forall₂_map_right_iff, List.forall₂_same]
    intro c _
    unfold fixExpired
    split
    · rename_i hcond
      right
      obtain ⟨hst, hamt⟩ := classify_expired_status hcond.2
      exact ⟨hst, hamt, classify_expired_expiry hcond.2, rfl⟩
    · exact Or.inl rfl

/-- C2 (counterexample to the claim as stated): requesting 600 with only 500
available is rejected, yet the credits table is not byte-for-byte unchanged —
the stale active grant CR3 has been reclassified to expired during the
validation read. -/
theorem C2_rejection_counterexample :
    (∃ v, (apply_credits demoState demoNow "CUST1" "" 600 "INV1").1 = ApplyOutcome.failed v) ∧
    (apply_credits demoState demoNow "CUST1" "" 600 "INV1").2.credits ≠ demoState.credits := by
  constructor
  · exact ⟨_, rfl⟩
  · decide

/-- C2 (witness): the amended theorem applied to the rejected 600 request on
the demo state. -/
theorem C2_rejection_witness :
    ((validate_credit_application demoState demoNow "CUST1" "" 600 "INV1").1.success = false) ∧
    (apply_credits demoState demoNow "CUST1" "" 600 "INV1").2.invoices = demoState.invoices :=
  ⟨by decide, (C2_rejection_amended demoState demoNow "CUST1" "" 600 "INV1" (by decide)).2.1⟩

end CreditService
